import Mathlib

/-!
Verification development for the VLC python/java ctypes binding generator
(src/generate.py).  The Python source is shallowly embedded: strings are
modelled as Lean strings (lists of characters), the precompiled regular
expressions are transliterated into a small backtracking regex engine that
mirrors the Python `re` semantics for the constructs the source uses
(greedy and lazy quantifiers over single character classes, alternation,
optional groups, capturing groups, end anchor), and the stateful line
machines of `Parser.parse_typedef` / `Parser.parse_include` are embedded as
explicit folds over the list of input lines.  Fallible Python code paths
(int() conversion, tuple unpacking of re.split results, KeyError lookups)
are modelled with Except/Option.
-/

set_option maxHeartbeats 1000000

namespace VlcGen

/-! ## Python string primitives (Python 2 `str` semantics, ASCII). -/

/-- Python whitespace for `str.strip` and the regex class backslash-s. -/
def pyIsSpace (c : Char) : Bool :=
  c = ' ' || c = '\t' || c = '\n' || c = '\r' || c = '\x0b' || c = '\x0c'

def pyLStripL (s : List Char) : List Char := s.dropWhile pyIsSpace

def pyRStripL (s : List Char) : List Char := (s.reverse.dropWhile pyIsSpace).reverse

def pyStripL (s : List Char) : List Char := pyRStripL (pyLStripL s)

/-- Python `s.strip()`. -/
def pyStrip (s : String) : String := String.mk (pyStripL s.data)

/-- Python `s.lstrip()`. -/
def pyLStrip (s : String) : String := String.mk (pyLStripL s.data)

/-- Python `s.rstrip(chars)` restricted to a single strip character. -/
def pyRStripChar (s : String) (c : Char) : String :=
  String.mk ((s.data.reverse.dropWhile (fun d => d = c)).reverse)

/-- Python `s.startswith(p)`. -/
def pyStartsWith (s p : String) : Bool := p.data.isPrefixOf s.data

/-- Python `s.endswith(p)`. -/
def pyEndsWith (s p : String) : Bool := p.data.isSuffixOf s.data

/-- Membership of a pattern as a contiguous infix, Python `pat in s`. -/
def isInfixL (pat : List Char) : List Char → Bool
  | [] => pat.isEmpty
  | c :: rest => pat.isPrefixOf (c :: rest) || isInfixL pat rest

/-- Python `pat in s` (substring containment). -/
def pyIn (pat s : String) : Bool := isInfixL pat.data s.data

/-- Python `s.index(pat)`: position of the leftmost occurrence. -/
def indexOfInfix (pat : List Char) : List Char → Option Nat
  | [] => if pat.isEmpty then some 0 else none
  | c :: rest =>
    if pat.isPrefixOf (c :: rest) then some 0
    else (indexOfInfix pat rest).map (· + 1)

/-- Python `s.replace(pat, rep)`: replace every non-overlapping occurrence,
scanning left to right, fuel-indexed for structural recursion (every step
consumes at least one input character, so fuel = input length suffices).
For the empty pattern the source never calls this (Python would interleave
`rep`); we return the string unchanged. -/
def replaceFuel (pat rep : List Char) : Nat → List Char → List Char
  | 0, s => s
  | fuel + 1, s =>
    match s with
    | [] => []
    | c :: rest =>
      if pat ≠ [] ∧ pat.isPrefixOf (c :: rest) then
        rep ++ replaceFuel pat rep fuel ((c :: rest).drop pat.length)
      else
        c :: replaceFuel pat rep fuel rest

def replaceL (pat rep s : List Char) : List Char := replaceFuel pat rep s.length s

/-- Python `s.replace(pat, rep)` on strings. -/
def pyReplace (s pat rep : String) : String :=
  String.mk (replaceL pat.data rep.data s.data)

/-- Python `s.split(sep)` for a nonempty separator, fuel-indexed. -/
def splitFuel (sep : List Char) : Nat → List Char → List Char → List (List Char)
  | 0, s, acc => [acc.reverse ++ s]
  | fuel + 1, s, acc =>
    match s with
    | [] => [acc.reverse]
    | c :: rest =>
      if sep ≠ [] ∧ sep.isPrefixOf (c :: rest) then
        acc.reverse :: splitFuel sep fuel ((c :: rest).drop sep.length) []
      else
        splitFuel sep fuel rest (c :: acc)

/-- Python `s.split(sep)` (nonempty separator). -/
def pySplit (s sep : String) : List String :=
  (splitFuel sep.data s.data.length s.data []).map String.mk

/-- Python `sep.join(parts)`. -/
def joinSep (sep : String) : List String → String
  | [] => ""
  | [x] => x
  | x :: y :: rest => x ++ sep ++ joinSep sep (y :: rest)

/-- Python `s.capitalize()`: first character upper-cased, the rest lower-cased. -/
def pyCapitalize (s : String) : String :=
  match s.data with
  | [] => ""
  | c :: rest => String.mk (c.toUpper :: rest.map Char.toLower)

/-- Auxiliary for Python `s.title()`: a letter starts upper-case when the
previous character was not a letter, lower-case otherwise. -/
def pyTitleL : List Char → Bool → List Char
  | [], _ => []
  | c :: rest, prevAlpha =>
    (if c.isAlpha then (if prevAlpha then c.toLower else c.toUpper) else c)
      :: pyTitleL rest c.isAlpha

/-- Python `s.title()`. -/
def pyTitle (s : String) : String := String.mk (pyTitleL s.data false)

/-! ## Python integer literals, `int(v)` and `int(v, 16)`. -/

def digToNat (c : Char) : Nat := c.toNat - '0'.toNat

/-- Value of a nonempty all-decimal-digit character list. -/
def decDigits? (l : List Char) : Option Nat :=
  if l ≠ [] ∧ l.all Char.isDigit then
    some (l.foldl (fun a c => a * 10 + digToNat c) 0)
  else none

/-- Python `int(v)` for a stripped token: optional sign, decimal digits. -/
def pyIntDec (s : String) : Option Int :=
  match s.data with
  | '-' :: rest => (decDigits? rest).map (fun n => -(n : Int))
  | '+' :: rest => (decDigits? rest).map (fun n => (n : Int))
  | l => (decDigits? l).map (fun n => (n : Int))

def hexDigVal? (c : Char) : Option Nat :=
  if c.isDigit then some (digToNat c)
  else if 'a' ≤ c ∧ c ≤ 'f' then some (c.toNat - 'a'.toNat + 10)
  else if 'A' ≤ c ∧ c ≤ 'F' then some (c.toNat - 'A'.toNat + 10)
  else none

def hexDigits? (l : List Char) : Option Nat :=
  if l = [] then none
  else l.foldl (fun a c => do (← a) * 16 + (← hexDigVal? c)) (some 0)

/-- Python `int(v, 16)` for a stripped token: optional sign, optional
0x / 0X prefix, hexadecimal digits. -/
def pyIntHex (s : String) : Option Int :=
  let core (l : List Char) : Option Nat :=
    match l with
    | '0' :: 'x' :: rest => hexDigits? rest
    | '0' :: 'X' :: rest => hexDigits? rest
    | _ => hexDigits? l
  match s.data with
  | '-' :: rest => (core rest).map (fun n => -(n : Int))
  | '+' :: rest => (core rest).map (fun n => (n : Int))
  | l => (core l).map (fun n => (n : Int))

/-! ## A small backtracking regex engine.

Exactly the fragment of Python `re` used by src/generate.py: literals,
single character classes, greedy/lazy star and plus over a character class,
greedy option, alternation, capturing groups, and the end anchor.  Matching
follows Python's leftmost backtracking semantics: alternatives and optional
parts try the left / present branch first, greedy quantifiers try the
longest run first, lazy quantifiers the shortest. -/

inductive Re where
  | lit (cs : List Char)
  | cls (p : Char → Bool)
  | star (p : Char → Bool) (lazy : Bool)
  | plus (p : Char → Bool) (lazy : Bool)
  | opt (r : Re)
  | alt (a b : Re)
  | cat (a b : Re)
  | grp (i : Nat) (r : Re)
  | eos

/-- Capture environment: group index to captured text, latest write first. -/
abbrev Caps := List (Nat × List Char)

def capSet (i : Nat) (v : List Char) (cp : Caps) : Caps := (i, v) :: cp

def capGet (cp : Caps) (i : Nat) : Option (List Char) :=
  ((cp : List (Nat × List Char)).find? (fun e => e.1 = i)).map (·.2)

/-- Length of the maximal prefix run satisfying the class. -/
def countRun (p : Char → Bool) : List Char → Nat
  | [] => 0
  | c :: t => if p c then countRun p t + 1 else 0

/-- Try the continuation after dropping each offset in turn (backtracking
order is the order of the offset list). -/
def tryOffs (s : List Char) (cp : Caps)
    (k : List Char → Caps → Option (List Char × Caps)) :
    List Nat → Option (List Char × Caps)
  | [] => none
  | n :: rest => (k (s.drop n) cp) <|> tryOffs s cp k rest

/-- Quantifier backtracking order: lazy tries 0,1,...,m; greedy m,...,1,0. -/
def quantOrder (m : Nat) (lazy : Bool) : List Nat :=
  if lazy then List.range (m + 1) else (List.range (m + 1)).reverse

/-- Continuation-passing matcher; the continuation receives the remaining
suffix and the capture environment. -/
def Re.mtch : Re → List Char → Caps →
    (List Char → Caps → Option (List Char × Caps)) → Option (List Char × Caps)
  | .lit cs, s, cp, k => if cs.isPrefixOf s then k (s.drop cs.length) cp else none
  | .cls p, s, cp, k =>
    match s with
    | [] => none
    | c :: t => if p c then k t cp else none
  | .star p lz, s, cp, k => tryOffs s cp k (quantOrder (countRun p s) lz)
  | .plus p lz, s, cp, k =>
    match s with
    | [] => none
    | c :: t =>
      if p c then tryOffs t cp k (quantOrder (countRun p t) lz) else none
  | .opt r, s, cp, k => (r.mtch s cp k) <|> k s cp
  | .alt a b, s, cp, k => (a.mtch s cp k) <|> (b.mtch s cp k)
  | .cat a b, s, cp, k => a.mtch s cp (fun s1 cp1 => b.mtch s1 cp1 k)
  | .grp i r, s, cp, k =>
    r.mtch s cp (fun s1 cp1 => k s1 (capSet i (s.take (s.length - s1.length)) cp1))
  | .eos, s, cp, k => if s = [] ∨ s = ['\n'] then k s cp else none

/-- Sequence a list of regexes. -/
def Re.seq (rs : List Re) : Re := rs.foldr Re.cat (.lit [])

/-- Anchored match at the start of the suffix (Python `pattern.match`),
returning the leftover suffix and the captures. -/
def reMatchL (r : Re) (s : List Char) : Option (List Char × Caps) :=
  r.mtch s [] (fun lf cp => some (lf, cp))

/-- Python `pattern.match(s)`: on success, the captures. -/
def reMatch (r : Re) (s : String) : Option Caps :=
  (reMatchL r s.data).map (·.2)

/-- Python `pattern.search(s)` scan: leftmost start offset with an anchored
match; returns (offset, leftover, captures). -/
def reSearchAux (r : Re) : Nat → List Char → Option (Nat × List Char × Caps)
  | off, s =>
    match reMatchL r s with
    | some (lf, cp) => some (off, lf, cp)
    | none =>
      match s with
      | [] => none
      | _ :: t => reSearchAux r (off + 1) t

/-- Python `pattern.search(s)`: on success, the captures. -/
def reSearch (r : Re) (s : String) : Option Caps :=
  (reSearchAux r 0 s.data).map (·.2.2)

/-- Captured group text as a string (None when the group did not take part
in the match). -/
def capStr (cp : Caps) (i : Nat) : Option String :=
  (capGet cp i).map String.mk

/-- Python `pattern.findall(s)`: capture environments of every
non-overlapping match, scanning left to right, resuming after each match
(advancing one character past a zero-width match). -/
def reFindAux (r : Re) : Nat → List Char → List Caps
  | 0, _ => []
  | fuel + 1, s =>
    match reSearchAux r 0 s with
    | none => []
    | some (off, lf, cp) =>
      let mlen := (s.length - off) - lf.length
      if mlen = 0 then cp :: reFindAux r fuel (s.drop (off + 1))
      else cp :: reFindAux r fuel lf

def reFindAll (r : Re) (s : String) : List Caps :=
  reFindAux r (s.data.length + 1) s.data

/-- Python `re.split(pattern, s)` for patterns without capture groups
(zero-width matches do not split). -/
def reSplitAux (r : Re) : Nat → List Char → List (List Char)
  | 0, s => [s]
  | fuel + 1, s =>
    match reSearchAux r 0 s with
    | none => [s]
    | some (off, lf, _) =>
      let mlen := (s.length - off) - lf.length
      if mlen = 0 then [s] else s.take off :: reSplitAux r fuel lf

def reSplit (r : Re) (s : String) : List String :=
  (reSplitAux r (s.data.length + 1) s.data).map String.mk

/-! ## The precompiled patterns of src/generate.py, transliterated. -/

/-- Regex class backslash-s. -/
def wsS : Re := .star pyIsSpace false

/-- Regex one-or-more backslash-s. -/
def wsP : Re := .plus pyIsSpace false

/-- Regex one-or-more backslash-S (non-whitespace). -/
def nwsP : Re := .plus (fun c => !pyIsSpace c) false

/-- Regex `.` (any character but newline, DOTALL not set). -/
def pyDot (c : Char) : Bool := c ≠ '\n'

/-- Greedy `.+`. -/
def dotP : Re := .plus pyDot false

/-- Lazy `.+?`. -/
def dotPLazy : Re := .plus pyDot true

/-- `api_re = re.compile('VLC_PUBLIC_API\\s+(\\S+\\s+.+?)\\s*\\(\\s*(.+?)\\s*\\)')`
(generate.py line 46). -/
def api_re : Re := .seq
  [ .lit "VLC_PUBLIC_API".data, wsP,
    .grp 1 (.seq [nwsP, wsP, dotPLazy]), wsS,
    .lit ['('], wsS, .grp 2 dotPLazy, wsS, .lit [')'] ]

/-- `param_re = re.compile('\\s*(const\\s*|unsigned\\s*|struct\\s*)?(\\S+\\s*\\**)\\s+(.+)')`
(generate.py line 47). -/
def param_re : Re := .seq
  [ wsS,
    .opt (.grp 1 (.alt (.seq [.lit "const".data, wsS])
      (.alt (.seq [.lit "unsigned".data, wsS]) (.seq [.lit "struct".data, wsS])))),
    .grp 2 (.seq [nwsP, wsS, .star (fun c => c = '*') false]),
    wsP, .grp 3 dotP ]

/-- `paramlist_re = re.compile('\\s*,\\s*')` (generate.py line 48). -/
def paramlist_re : Re := .seq [wsS, .lit [','], wsS]

/-- `comment_re = re.compile('\\param\\s+(\\S+)')` (generate.py line 49).
The pattern string contains the escape backslash-p, which the Python 2
regex engine of the era accepted as the literal letter p, so the compiled
pattern is `param\\s+(\\S+)`. -/
def comment_re : Re := .seq [.lit "param".data, wsP, .grp 1 nwsP]

/-- `python_param_re = re.compile('(@param\\s+\\S+)(.+)')` (generate.py line 50). -/
def python_param_re : Re := .seq
  [ .grp 1 (.seq [.lit "@param".data, wsP, nwsP]), .grp 2 dotP ]

/-- `forward_re = re.compile('.+\\(\\s*(.+?)\\s*\\)(\\s*\\S+)')` (generate.py line 51). -/
def forward_re : Re := .seq
  [ dotP, .lit ['('], wsS, .grp 1 dotPLazy, wsS, .lit [')'],
    .grp 2 (.seq [wsS, nwsP]) ]

/-- `enum_re = re.compile('(?:typedef\\s+)?(enum)\\s*(\\S+)\\s*\\{\\s*(.+)\\s*\\}\\s*(?:\\S+)?;')`
(generate.py line 52).  Note that the name-capturing group 2 is a mandatory
`\\S+`: it cannot match the empty string, and its token cannot be the brace
that opens the member list (the following literal brace would find no
second brace to consume). -/
def enum_re : Re := .seq
  [ .opt (.seq [.lit "typedef".data, wsP]),
    .grp 1 (.lit "enum".data), wsS, .grp 2 nwsP, wsS,
    .lit ['\x7b'], wsS, .grp 3 dotP, wsS, .lit ['\x7d'], wsS,
    .opt nwsP, .lit [';'] ]

/-- `re.match('^(?:typedef\\s+)?enum', l)` (generate.py line 154). -/
def enumstart_re : Re := .seq [.opt (.seq [.lit "typedef".data, wsP]), .lit "enum".data]

/-- `re.split('\\s*=\\s*', l)` pattern (generate.py line 181). -/
def eqsplit_re : Re := .seq [wsS, .lit ['='], wsS]

/-- `re.findall('libvlc_(.+?)(_t)?$', name)` pattern (generate.py line 432). -/
def libvlc_t_re : Re := .seq
  [ .lit "libvlc_".data, .grp 1 dotPLazy, .opt (.grp 2 (.lit "_t".data)), .eos ]

/-- `re.findall('libvlc_(.+?)(_[te])?$', name)` pattern (generate.py line 750). -/
def libvlc_te_re : Re := .seq
  [ .lit "libvlc_".data, .grp 1 dotPLazy,
    .opt (.grp 2 (.seq [.lit ['_'], .cls (fun c => c = 't' || c = 'e')])), .eos ]

/-- Effectful map over a list in the Except monad, first error wins
(explicit recursion for easy reasoning). -/
def exMapM {a b : Type} (f : a → Except String b) : List a → Except String (List b)
  | [] => .ok []
  | x :: rest =>
    match f x with
    | .error e => .error e
    | .ok y =>
      match exMapM f rest with
      | .error e => .error e
      | .ok tail => .ok (y :: tail)

/-- Effectful map over a list in the Option monad. -/
def opMapM {a b : Type} (f : a → Option b) : List a → Option (List b)
  | [] => some []
  | x :: rest =>
    match f x with
    | none => none
    | some y =>
      match opMapM f rest with
      | none => none
      | some tail => some (y :: tail)

/-! ## The intermediate model. -/

/-- One recovered function declaration: the tuple
`(return_type, method_name, parameter_list, comment)` yielded by
`Parser.parse_include`. -/
structure CFun where
  rtype : String
  met : String
  params : List (String × String)
  comment : String
deriving DecidableEq, Repr

/-- One recovered enum typedef: the tuple `(type, name, value_list, comment)`
yielded by `Parser.parse_typedef`. -/
structure EnumDef where
  typ : String
  ename : String
  values : List (String × String)
  comment : String
deriving DecidableEq, Repr

/-! ## Parser.parse_param (generate.py lines 87-113). -/

/-- The `while name.startswith('*')` loop of parse_param: move each leading
star from the name onto the type. -/
def moveStars : List Char → List Char → List Char × List Char
  | typ, '*' :: rest => moveStars (typ ++ ['*']) rest
  | typ, nm => (typ, nm)

/-- Embedding of `Parser.parse_param`.  `none` models the AttributeError
Python raises when a VLC_FORWARD expression does not match forward_re. -/
def parse_param (s0 : String) : Option (String × String) :=
  let s1 := pyStrip s0
  let s2 := pyReplace s1 "const" ""
  let s3? : Option String :=
    if pyIn "VLC_FORWARD" s2 then
      match reMatch forward_re s2 with
      | some cp =>
        match capStr cp 1, capStr cp 2 with
        | some g1, some g2 => some (g1 ++ g2)
        | _, _ => none
      | none => none
    else some s2
  s3?.bind (fun s =>
    match reSearch param_re s with
    | some cp =>
      match capStr cp 2, capStr cp 3 with
      | some typ, some nm =>
        let tn := moveStars typ.data nm.data
        let nm2 := if String.mk tn.2 = "const*" then "" else String.mk tn.2
        some (pyReplace (String.mk tn.1) " " "", nm2)
      | _, _ => none
    | none => some (pyReplace s " " "", ""))

/-! ## Parser.parse_typedef (generate.py lines 115-206). -/

/-- The member-list loop of parse_typedef (lines 174-190): fold over the
comma-split member expressions carrying the running counter `val`.
Comment fragments are skipped without advancing the counter; an explicit
`= value` member stores its textual value and resets the counter from it
(hexadecimal when the text starts with 0x, decimal otherwise); every other
nonempty member stores the current counter as decimal text; the counter
advances by one at the end of each non-comment iteration, also for empty
fragments.  Errors model Python's ValueError on int() and on unpacking a
split that does not have exactly two parts. -/
def enumMembersLoop : List String → Int → Except String (List (String × String))
  | [], _ => .ok []
  | piece :: rest, val =>
    let l := pyStrip piece
    if pyStartsWith l "/*" then enumMembersLoop rest val
    else if pyIn "=" l then
      match reSplit eqsplit_re l with
      | [n, v] =>
        match (if pyStartsWith v "0x" then pyIntHex v else pyIntDec v) with
        | some newVal =>
          match enumMembersLoop rest (newVal + 1) with
          | .error e => .error e
          | .ok tail => .ok ((n, v) :: tail)
        | none => .error ("invalid literal for int(): " ++ v)
      | _ => .error ("unpack of re.split result failed: " ++ l)
    else
      if l ≠ "" then
        match enumMembersLoop rest (val + 1) with
        | .error e => .error e
        | .ok tail => .ok ((l, toString val) :: tail)
      else enumMembersLoop rest (val + 1)

/-- Classification of one logical line against enum_re, with member
decoding and comment cleanup (lines 170-204).  Returns `none` when the
line is not an enum definition. -/
def processEnumMatch (l : String) (comment : String) : Except String (Option EnumDef) :=
  match reMatch enum_re l with
  | none => .ok none
  | some cp => do
    let typ := (capStr cp 1).getD ""
    let data := (capStr cp 3).getD ""
    let values ← enumMembersLoop (reSplit paramlist_re data) 0
    let ename :=
      match capStr cp 2 with
      | none => "libvlc_enum_t"
      | some n => pyStrip n
    let c1 := if pyEndsWith comment "*/" then String.mk (comment.data.dropLast.dropLast) else comment
    let c2 := pyStrip c1
    let c3 := if c2 ≠ "" then pyRStripChar (pyCapitalize c2) '.' ++ "." else c2
    .ok (some ⟨typ, ename, values, c3⟩)

/-- The line state machine of parse_typedef: the pending documentation
comment, the simple-comment state, and the multi-line accumulator.  Input
lines carry no trailing newline; where Python keeps the newline of a raw
line inside the comment buffer, the embedding appends it explicitly. -/
def parseTypedefGo : List String → String → Option String → String →
    Except String (List EnumDef)
  | [], _, _, _ => .ok []
  | raw :: rest, comment, simple, accum =>
    if pyStartsWith (pyLStrip raw) "/**" then
      parseTypedefGo rest (String.mk (raw.data.drop 3) ++ "\n") simple accum
    else if pyStartsWith raw " * " then
      parseTypedefGo rest (comment ++ String.mk (raw.data.drop 3) ++ "\n") simple accum
    else
      let l0 := pyStrip raw
      if pyStartsWith l0 "/*" then
        parseTypedefGo rest comment
          (if pyEndsWith l0 "*/" then none else some (String.mk (l0.data.drop 2))) accum
      else if simple.isSome then
        if pyEndsWith l0 "*/" then parseTypedefGo rest comment none accum
        else parseTypedefGo rest comment (simple.map (fun sc => sc ++ l0)) accum
      else if (reMatch enumstart_re l0).isSome && !(pyEndsWith l0 ";") then
        parseTypedefGo rest comment simple l0
      else if accum ≠ "" then
        let l1 :=
          match indexOfInfix "/*".data l0.data with
          | some i => String.mk (l0.data.take i)
          | none => l0
        let joined := accum ++ " " ++ l1
        if pyEndsWith l1 ";" then do
          match ← processEnumMatch joined comment with
          | some e => do
            let tail ← parseTypedefGo rest "" simple ""
            .ok (e :: tail)
          | none => parseTypedefGo rest comment simple ""
        else parseTypedefGo rest comment simple joined
      else do
        match ← processEnumMatch l0 comment with
        | some e => do
          let tail ← parseTypedefGo rest "" simple ""
          .ok (e :: tail)
        | none => parseTypedefGo rest comment simple ""

/-- Embedding of `Parser.parse_typedef` over the lines of one include file. -/
def parse_typedef (lines : List String) : Except String (List EnumDef) :=
  parseTypedefGo lines "" none ""

/-! ## Parser.parse_include (generate.py lines 208-286). -/

/-- Parameter-tag names recovered from a documentation comment:
`comment_re.findall(comment)`. -/
def commentParamNames (comment : String) : List String :=
  (reFindAll comment_re comment).filterMap (fun cp => capStr cp 1)

/-- The `badnames` array of lines 261-264: positional `param<i>` defaults,
the first `len(names)` entries overwritten by the recovered tag names. -/
def mkBadnames (nparams : Nat) (names : List String) : List String :=
  (List.range nparams).map (fun i =>
    match names.get? i with
    | some n => n
    | none => "param" ++ toString i)

/-- The parameter-name recovery block of lines 255-271, guarded by the
presence of at least one empty parameter name.  Returns the rewritten
parameter list together with the optional defect report (the second,
content-carrying print line). -/
def recoverParams (met : String) (params : List (String × String)) (comment : String) :
    List (String × String) × Option String :=
  if params.any (fun p => p.2 = "") then
    let names0 := commentParamNames comment
    let nr :=
      if names0.length < params.length then
        (mkBadnames params.length names0,
         some ("### Cannot get parameter names from comment for " ++ met ++ ": "
               ++ pyReplace comment "\n" " "))
      else (names0, (none : Option String))
    ((params.enum.map (fun ip => (ip.2.1, nr.1.getD ip.1 ""))), nr.2)
  else (params, none)

/-- The line state machine of parse_include: pending comment and multi-line
accumulator; produces the recovered declarations and the defect reports. -/
def parseIncludeGo : List String → String → String →
    Except String (List CFun × List String)
  | [], _, _ => .ok ([], [])
  | raw :: rest, comment, accum =>
    if pyStartsWith (pyLStrip raw) "/**" then
      parseIncludeGo rest "" accum
    else if pyStartsWith raw " * " then
      parseIncludeGo rest (comment ++ String.mk (raw.data.drop 3) ++ "\n") accum
    else
      let l0 := pyStrip raw
      if accum = "" && pyStartsWith l0 "VLC_PUBLIC_API" && !(pyEndsWith l0 ");") then
        parseIncludeGo rest comment l0
      else
        let la :=
          if accum ≠ "" then
            (if pyEndsWith l0 ");" then (accum ++ " " ++ l0, "") else (l0, accum ++ " " ++ l0))
          else (l0, accum)
        match reMatch api_re la.1 with
        | none => parseIncludeGo rest comment la.2
        | some cp =>
          let ret := (capStr cp 1).getD ""
          let param := (capStr cp 2).getD ""
          match parse_param ret with
          | none => .error "AttributeError in parse_param"
          | some rm =>
            match opMapM parse_param (reSplit paramlist_re param) with
            | none => .error "AttributeError in parse_param"
            | some params0 =>
              let params1 :=
                match params0 with
                | [(t, _)] => if t = "void" then [] else params0
                | _ => params0
              let pr := recoverParams rm.2 params1 comment
              do
                let tr ← parseIncludeGo rest "" la.2
                .ok (⟨rm.1, rm.2, pr.1, comment⟩ :: tr.1,
                     match pr.2 with
                     | some r => r :: tr.2
                     | none => tr.2)

/-- Embedding of `Parser.parse_include` over the lines of one include file. -/
def parse_include (lines : List String) : Except String (List CFun × List String) :=
  parseIncludeGo lines "" ""

/-! ## Parameter direction flags (generate.py lines 56-75). -/

/-- Methods not decorated / not referenced (generate.py lines 40-43). -/
def blacklist : List String := ["libvlc_set_exit_handler", "libvlc_video_set_callbacks"]

/-- Parameter direction flag constants of class Flag. -/
inductive Flag where
  | In
  | Out
  | InOut
  | InZero
deriving DecidableEq, Repr

/-- The integer constant behind each Flag name. -/
def Flag.toInt : Flag → Int
  | .In => 1
  | .Out => 2
  | .InOut => 3
  | .InZero => 4

/-- Embedding of `paramFlag3`: the parameter direction as a 1-tuple for the
given type; the fixed dictionary maps int* and unsigned* to Out and
libvlc_exception_t* to InOut, everything else defaults to In. -/
def paramFlag3 (typ : String) : List Flag :=
  [(List.lookup typ
      [("int*", Flag.Out), ("unsigned*", Flag.Out), ("libvlc_exception_t*", Flag.InOut)]).getD
    Flag.In]

/-- Python `str` of the direction tuple, for instance `(1,)`. -/
def flagTupleStr (fs : List Flag) : String :=
  "(" ++ joinSep ", " (fs.map (fun f => toString f.toInt)) ++
    (if fs.length = 1 then ",)" else ")")

/-! ## PythonGenerator (generate.py lines 302-663).

Python dictionaries are embedded as association lists looked up with
`List.lookup` (first match wins); `dict.update(new)` therefore prepends the
new entries.  The iteration order of `type2class.iteritems()` is the list
order, which is the literal order of the source dictionary. -/

/-- The fixed C-type to ctypes/python conversion table (lines 305-344). -/
def type2classBase : List (String × String) := [
  ("libvlc_media_player_t*", "MediaPlayer"),
  ("libvlc_instance_t*", "Instance"),
  ("libvlc_media_t*", "Media"),
  ("libvlc_log_t*", "Log"),
  ("libvlc_log_iterator_t*", "LogIterator"),
  ("libvlc_log_message_t*", "ctypes.POINTER(LogMessage)"),
  ("libvlc_event_type_t", "ctypes.c_uint"),
  ("libvlc_event_manager_t*", "EventManager"),
  ("libvlc_media_discoverer_t*", "MediaDiscoverer"),
  ("libvlc_media_library_t*", "MediaLibrary"),
  ("libvlc_media_list_t*", "MediaList"),
  ("libvlc_media_list_player_t*", "MediaListPlayer"),
  ("libvlc_media_list_view_t*", "MediaListView"),
  ("libvlc_track_description_t*", "ctypes.POINTER(TrackDescription)"),
  ("libvlc_audio_output_t*", "ctypes.POINTER(AudioOutput)"),
  ("libvlc_media_stats_t*", "ctypes.POINTER(MediaStats)"),
  ("libvlc_media_track_info_t**", "ctypes.POINTER(ctypes.POINTER(MediaTrackInfo))"),
  ("libvlc_drawable_t", "ctypes.c_uint"),
  ("libvlc_rectangle_t*", "ctypes.POINTER(Rectangle)"),
  ("WINDOWHANDLE", "ctypes.c_ulong"),
  ("void", "None"),
  ("void*", "ctypes.c_void_p"),
  ("short", "ctypes.c_short"),
  ("char*", "ctypes.c_char_p"),
  ("char**", "ListPOINTER(ctypes.c_char_p)"),
  ("uint32_t", "ctypes.c_uint32"),
  ("int64_t", "ctypes.c_int64"),
  ("float", "ctypes.c_float"),
  ("unsigned", "ctypes.c_uint"),
  ("unsigned*", "ctypes.POINTER(ctypes.c_uint)"),
  ("int", "ctypes.c_int"),
  ("int*", "ctypes.POINTER(ctypes.c_int)"),
  ("...", "FIXME_va_list"),
  ("libvlc_callback_t", "ctypes.c_void_p"),
  ("libvlc_time_t", "ctypes.c_longlong")]

/-- Python classes wrapped around libvlc functions (lines 348-360). -/
def defined_classes : List String :=
  ["MediaPlayer", "Instance", "Media", "Log", "LogIterator", "EventManager",
   "MediaDiscoverer", "MediaLibrary", "MediaList", "MediaListPlayer", "MediaListView"]

/-- First character upper-case test for `pyname[0].isupper()`. -/
def headIsUpper (s : String) : Bool :=
  match s.data with
  | [] => false
  | c :: _ => c.isUpper

/-- Python name of one enum (lines 429-439): the stem recovered by
`re.findall('libvlc_(.+?)(_t)?$', name)[0][0]` (error models the IndexError
when the name has no libvlc_ prefix), then the special case for
libvlc_event_e, title-casing of underscored stems, or capitalization. -/
def convertEnumName (ename : String) : Except String String :=
  match (reFindAll libvlc_t_re ename).head? with
  | none => .error ("IndexError: no libvlc_ match in " ++ ename)
  | some cp =>
    let pyname := (capStr cp 1).getD ""
    if ename = "libvlc_event_e" then .ok "EventType"
    else if pyIn "_" pyname then .ok (pyReplace (pyTitle pyname) "_" "")
    else if !headIsUpper pyname then .ok (pyCapitalize pyname)
    else .ok pyname

/-- Embedding of `PythonGenerator.convert_enum_names` (lines 427-440). -/
def convert_enum_names (enums : List EnumDef) : Except String (List (String × String)) :=
  exMapM (fun e =>
    if e.typ ≠ "enum" then .error "This method only handles enums"
    else (convertEnumName e.ename).map (fun p => (e.ename, p))) enums

/-- The type table after `self.type2class.update(self.convert_enum_names(...))`. -/
def pythonT2C (enums : List EnumDef) : Except String (List (String × String)) :=
  (convert_enum_names enums).map (fun upd => upd ++ type2classBase)

/-- The error text of `PythonGenerator.check_types` (line 411). -/
def noConversionMsg (typ met pname : String) : String :=
  "No conversion for " ++ typ ++ " (from " ++ met ++ ":" ++ pname ++ ")"

/-- Inner loop of check_types over one method's parameters. -/
def checkTypesParams (t2c : List (String × String)) (met : String) :
    List (String × String) → Except String Unit
  | [] => .ok ()
  | p :: rest =>
    if (List.lookup p.1 t2c).isSome then checkTypesParams t2c met rest
    else .error (noConversionMsg p.1 met p.2)

/-- Embedding of `PythonGenerator.check_types` (lines 402-411): every
parameter type of every parsed method must be in the table; the return
type is not examined, and blacklisted methods are not skipped. -/
def check_types (t2c : List (String × String)) : List CFun → Except String Unit
  | [] => .ok ()
  | m :: rest =>
    match checkTypesParams t2c m.met m.params with
    | .error e => .error e
    | .ok _ => check_types t2c rest

/-- The prefix table of lines 371-373: short-name prefixes stripped from
method names, `dict((v, k[:-2]) ...)` over the type table. -/
def prefixesOf (t2c : List (String × String)) : List (String × String) :=
  t2c.filterMap (fun kv =>
    if defined_classes.contains kv.2 then
      some (kv.2, String.mk kv.1.data.dropLast.dropLast)
    else none)

/-- The state built by `PythonGenerator.__init__` (lines 362-373). -/
structure PyGen where
  t2c : List (String × String)
  pfx : List (String × String)
deriving Repr

/-- Embedding of `PythonGenerator.__init__`: convert enum names into the
type table, then eagerly check all parameter types. -/
def pythonGeneratorInit (enums : List EnumDef) (methods : List CFun) :
    Except String PyGen := do
  let t2c ← pythonT2C enums
  check_types t2c methods
  .ok ⟨t2c, prefixesOf t2c⟩

/-! ## File emission, modelled structurally.

Each `self.output(...)` call of save / generate_enums / generate_wrappers /
output_ctypes becomes one output item carrying the data interpolated into
the corresponding template.  The static texts inserted from header.py and
footer.py are opaque markers; documentation strings are carried raw (the
epydoc_comment rewriting affects only comment text, never the emitted
declaration names, argument lists or flags). -/

inductive PyOut where
  | headerCode
  | enumBase
  | enumClass (pyname comment : String) (namesLines attrLines : List String)
  | classHeader (cls : String)
  | classDocstring (cls text : String)
  | newBoiler (cls : String)
  | fromParamBoiler (cls : String)
  | overrideSplice (cls code : String)
  | wrapMethod (cls met shortName args comment : String)
  | lenMethod (cls met : String)
  | itemMethod (cls met : String)
  | ctypesDecl (met args flags comment : String)
  | footerCode
  | summaryHeader (n : Nat)
  | summaryLines (entries : List String)
deriving DecidableEq, Repr

/-- Byte-lexicographic string order (Python 2 `str` comparison; agrees with
the codepoint order on the ASCII data the generator handles). -/
def strLtL : List Char → List Char → Bool
  | [], [] => false
  | [], _ :: _ => true
  | _ :: _, [] => false
  | c :: cs, d :: ds =>
    if c.toNat < d.toNat then true
    else if d.toNat < c.toNat then false
    else strLtL cs ds

def pyStrLt (a b : String) : Bool := strLtL a.data b.data

/-- Embedding of `PythonGenerator.output_ctypes` (lines 492-516):
blacklisted methods produce no output; otherwise the CFUNCTYPE argument
list is the translated return type (with the FIXME fallback for an
untranslated one) followed by the translated parameter types (KeyError for
an untranslated one), and the flag tuple string per parameter. -/
def output_ctypes (t2c : List (String × String)) (m : CFun) :
    Except String (List PyOut) :=
  if blacklist.contains m.met then .ok []
  else
    match exMapM (fun p : String × String =>
      match List.lookup p.1 t2c with
      | some c => Except.ok c
      | none => Except.error ("KeyError: " ++ p.1)) m.params with
    | .error e => .error e
    | .ok ptypes =>
      let args := joinSep ", " (((List.lookup m.rtype t2c).getD ("FIXME_" ++ m.rtype)) :: ptypes)
      let flags0 := joinSep ", " (m.params.map (fun p => flagTupleStr (paramFlag3 p.1)))
      let flags := if flags0 ≠ "" then flags0 ++ "," else flags0
      .ok [.ctypesDecl m.met args flags m.comment]

/-! ## PythonGenerator.generate_enums (lines 442-490). -/

/-- Sorted-ascending string list (Python `sorted`). -/
def insertStr (x : String) : List String → List String
  | [] => [x]
  | y :: rest => if pyStrLt y x then y :: insertStr x rest else x :: y :: rest

def sortedStrings : List String → List String
  | [] => []
  | x :: rest => insertStr x (sortedStrings rest)

/-- Symbol conversion of lines 475-481: final underscore component, the
last two components when the final one is a single character, and an
underscore prefix for a leading digit.  `none` models the IndexError on
`n[0]` for an empty result. -/
def enumAttrName (k : String) : Option String :=
  let parts := pySplit k "_"
  let n := parts.getLastD ""
  let n := if n.length ≤ 1 then joinSep "_" (parts.drop (parts.length - 2)) else n
  match n.data with
  | [] => none
  | c :: _ => some (if c.isDigit then "_" ++ n else n)

/-- The `_names` dictionary line `        %s: '%s',` of line 482. -/
def enumNamesLine (v n : String) : String := "        " ++ v ++ ": '" ++ n ++ "',"

/-- The attribute line `%(class)s.%(attribute)s=%(class)s(%(value)s)` of
lines 483-487. -/
def enumAttrLine (pyname n v : String) : String :=
  pyname ++ "." ++ n ++ "=" ++ pyname ++ "(" ++ v ++ ")"

/-- Embedding of `PythonGenerator.generate_enums`: the _Enum base class,
then per enum the class with its `_names` lines in declaration order and
the sorted attribute lines. -/
def enumClassItem (t2c : List (String × String)) (e : EnumDef) : Except String PyOut :=
  if e.typ ≠ "enum" then Except.error "This method only handles enums"
  else
    match List.lookup e.ename t2c with
    | none => Except.error ("KeyError: " ++ e.ename)
    | some pyname =>
      match exMapM (fun kv : String × String =>
        match enumAttrName kv.1 with
        | none => Except.error "IndexError: empty symbol"
        | some n => Except.ok (enumNamesLine kv.2 n, enumAttrLine pyname n kv.2)) e.values with
      | .error er => .error er
      | .ok pairs =>
        Except.ok (PyOut.enumClass pyname e.comment (pairs.map (fun q => q.1))
          (sortedStrings (pairs.map (fun q => q.2))))

def generate_enums (t2c : List (String × String)) (enums : List EnumDef) :
    Except String (List PyOut) :=
  match exMapM (enumClassItem t2c) enums with
  | .error e => .error e
  | .ok items => .ok (PyOut.enumBase :: items)

/-! ## PythonGenerator.generate_wrappers (lines 578-663). -/

/-- Override definitions, the result of parse_override on the external
override.py input file: per class the verbatim code block, the overridden
method names, and the extracted docstring. -/
structure Overrides where
  code : List (String × String)
  methodsOv : List (String × List String)
  docstring : List (String × String)
deriving Repr

/-- The wrapping class of a method: its first parameter's translated type
when that translation is one of the defined classes (the comprehension
condition of lines 585-588). -/
def wrapClassOf (t2c : List (String × String)) (m : CFun) : Option String :=
  match m.params with
  | [] => none
  | p :: _ =>
    match List.lookup p.1 t2c with
    | some c => if defined_classes.contains c then some c else none
    | none => none

/-- Stable ascending insertion by class name (Python `sorted` with
`key=operator.itemgetter(0)` is stable). -/
def insertElem (x : String × CFun) : List (String × CFun) → List (String × CFun)
  | [] => [x]
  | y :: rest => if pyStrLt y.1 x.1 then y :: insertElem x rest else x :: y :: rest

def sortByCls : List (String × CFun) → List (String × CFun)
  | [] => []
  | x :: rest => insertElem x (sortByCls rest)

/-- The sorted `elements` sequence of lines 584-589. -/
def elementsOf (t2c : List (String × String)) (methods : List CFun) :
    List (String × CFun) :=
  sortByCls (methods.filterMap (fun m => (wrapClassOf t2c m).map (fun c => (c, m))))

/-- Adjacent grouping by equal class name (itertools.groupby over the
sorted sequence, line 593), fuel-indexed for structural recursion (each
step consumes at least the head element, so fuel = length suffices). -/
def groupAdjFuel : Nat → List (String × CFun) → List (String × List CFun)
  | 0, _ => []
  | fuel + 1, l =>
    match l with
    | [] => []
    | e :: rest =>
      (e.1, e.2 :: (rest.takeWhile (fun d => d.1 = e.1)).map (·.2)) ::
        groupAdjFuel fuel (rest.dropWhile (fun d => d.1 = e.1))

def groupAdj (l : List (String × CFun)) : List (String × List CFun) :=
  groupAdjFuel l.length l

/-- The short method name of line 629:
`method.replace(prefix, '').replace('libvlc_', '')`. -/
def wrapShortName (pfx : List (String × String)) (cls met : String) : String :=
  pyReplace (pyReplace met ((List.lookup cls pfx).getD "") "") "libvlc_" ""

/-- Whether the loop of lines 625-646 reaches the first-parameter
self-renaming and the wrapper emission for this method: eligible first
parameter, not blacklisted, short name not already defined in override
code. -/
def wrapEmitted (t2c pfx : List (String × String)) (ov : Overrides) (m : CFun) : Bool :=
  match wrapClassOf t2c m with
  | none => false
  | some c =>
    !(blacklist.contains m.met) &&
      !(((List.lookup c ov.methodsOv).getD []).contains (wrapShortName pfx c m.met))

/-- The in-place first-parameter rename of line 636:
`params[0] = (params[0][0], 'self')`. -/
def setSelf (m : CFun) : CFun :=
  { m with
    params :=
      match m.params with
      | [] => []
      | p :: rest => (p.1, "self") :: rest }

/-- The parsed method list after generate_wrappers has run: the shared
parameter list of every method that reached line 636 now carries the
self-reference token as its first parameter name. -/
def mutateMethods (t2c pfx : List (String × String)) (ov : Overrides)
    (methods : List CFun) : List CFun :=
  methods.map (fun m => if wrapEmitted t2c pfx ov m then setSelf m else m)

/-- Output items for one method of a wrapper class group (lines 625-662). -/
def methodItems (t2c pfx : List (String × String)) (ov : Overrides) (c : String)
    (m : CFun) : List PyOut :=
  if blacklist.contains m.met then []
  else
    let name := wrapShortName pfx c m.met
    if ((List.lookup c ov.methodsOv).getD []).contains name then []
    else
      let m2 := setSelf m
      let args := joinSep ", "
        ((m2.params.filter (fun p => (paramFlag3 p.1).headD Flag.In ≠ Flag.Out)).map (·.2))
      [PyOut.wrapMethod c m.met name args m.comment] ++
        (if name = "count" then [PyOut.lenMethod c m.met]
         else if pyEndsWith name "item_at_index" then [PyOut.itemMethod c m.met]
         else [])

/-- Output items for one wrapper class group (lines 594-662). -/
def groupItems (t2c pfx : List (String × String)) (ov : Overrides) (c : String)
    (ms : List CFun) : List PyOut :=
  [PyOut.classHeader c] ++
    (match List.lookup c ov.docstring with
     | some d => [PyOut.classDocstring c (pyStrip d)]
     | none => []) ++
    (if pyIn "def __new__" ((List.lookup c ov.code).getD "") then []
     else [PyOut.newBoiler c]) ++
    [PyOut.fromParamBoiler c] ++
    (match List.lookup c ov.code with
     | some codeText => [PyOut.overrideSplice c codeText]
     | none => []) ++
    ms.flatMap (methodItems t2c pfx ov c)

/-- The wrapped-method name set returned by generate_wrappers: every
non-blacklisted eligible method's name (`ret.add(method)` at line 630 runs
before the override skip). -/
def wrappedNames (t2c : List (String × String)) (methods : List CFun) : List String :=
  (elementsOf t2c methods).filterMap (fun cm =>
    if blacklist.contains cm.2.met then none else some cm.2.met)

structure WrapResult where
  items : List PyOut
  wrapped : List String
  methodsAfter : List CFun
deriving Repr

/-- Embedding of `PythonGenerator.generate_wrappers`: the emitted items,
the wrapped name set, and the mutated method list. -/
def generate_wrappers (t2c pfx : List (String × String)) (ov : Overrides)
    (methods : List CFun) : WrapResult :=
  { items := (groupAdj (elementsOf t2c methods)).flatMap
      (fun g => groupItems t2c pfx ov g.1 g.2)
    wrapped := wrappedNames t2c methods
    methodsAfter := mutateMethods t2c pfx ov methods }

/-- Embedding of `PythonGenerator.save` (lines 375-396): header (with the
generated enums at the GENERATED_ENUMS marker), wrapper classes, one ctypes
declaration per parsed method read from the post-wrapper state, footer, and
the sorted summary of unwrapped method names when any exist. -/
def summaryItems (w : WrapResult) : List PyOut :=
  let unwrapped := w.methodsAfter.filterMap (fun m =>
    if w.wrapped.contains m.met then none else some ("#  " ++ m.met))
  if unwrapped ≠ [] then
    [PyOut.summaryHeader unwrapped.length, PyOut.summaryLines (sortedStrings unwrapped)]
  else []

def save (t2c pfx : List (String × String)) (ov : Overrides) (enums : List EnumDef)
    (methods : List CFun) : Except String (List PyOut) :=
  match generate_enums t2c enums with
  | .error e => .error e
  | .ok enumItems =>
    match exMapM (output_ctypes t2c) (generate_wrappers t2c pfx ov methods).methodsAfter with
    | .error e => .error e
    | .ok ctypesItems =>
      .ok ([PyOut.headerCode] ++ enumItems ++ (generate_wrappers t2c pfx ov methods).items ++
        ctypesItems.flatten ++ [PyOut.footerCode] ++
        summaryItems (generate_wrappers t2c pfx ov methods))

/-- The whole Python pipeline of `process` (lines 831-834): construct the
generator (eager type check) and save. -/
def pythonGenerate (enums : List EnumDef) (methods : List CFun) (ov : Overrides) :
    Except String (List PyOut) := do
  let g ← pythonGeneratorInit enums methods
  save g.t2c g.pfx ov enums methods

/-! ## Observation functions and specification folds used by the theorems. -/

/-- The function name bound by an emitted declaration item: a wrapped class
method, a synthesized len/getitem capability, or a free ctypes declaration. -/
def declaredMethodName : PyOut → Option String
  | .wrapMethod _ met _ _ _ => some met
  | .lenMethod _ met => some met
  | .itemMethod _ met => some met
  | .ctypesDecl met _ _ _ => some met
  | _ => none

/-- Whether an item is a free ctypes function declaration. -/
def isCtypesItem : PyOut → Bool
  | .ctypesDecl _ _ _ _ => true
  | _ => false

/-- A member expression with no explicit value: already stripped, nonempty,
without an equals sign, and not a comment fragment. -/
def implicitPiece (l : String) : Prop :=
  pyStrip l = l ∧ l ≠ "" ∧ pyIn "=" l = false ∧ pyStartsWith l "/*" = false

instance (l : String) : Decidable (implicitPiece l) := by
  unfold implicitPiece
  infer_instance

/-- The running counter of the specification: members without explicit
values receive val, val + 1, ... in order, as decimal text. -/
def implicitSpec (val : Int) : List String → List (String × String)
  | [] => []
  | l :: rest => (l, toString val) :: implicitSpec (val + 1) rest

/-! ## Helper lemmas. -/

theorem exMapM_ok_mem {a b : Type} (f : a → Except String b) :
    ∀ (l : List a) (ys : List b), exMapM f l = .ok ys → ∀ y ∈ ys, ∃ x ∈ l, f x = .ok y := by
  intro l
  induction l with
  | nil =>
    intro ys h y hy
    simp only [exMapM] at h
    cases h
    simp at hy
  | cons x rest ih =>
    intro ys h y hy
    simp only [exMapM] at h
    cases hfx : f x with
    | error e =>
      rw [hfx] at h
      cases h
    | ok v =>
      rw [hfx] at h
      cases hrest : exMapM f rest with
      | error e =>
        rw [hrest] at h
        cases h
      | ok vs =>
        rw [hrest] at h
        simp only [Except.ok.injEq] at h
        rw [← h] at hy
        rcases List.mem_cons.mp hy with h1 | h2
        · exact ⟨x, List.mem_cons_self x rest, by rw [hfx, h1]⟩
        · rcases ih vs hrest y h2 with ⟨x2, hx2, hfx2⟩
          exact ⟨x2, List.mem_cons_of_mem x hx2, hfx2⟩

theorem exMapM_ok_of_forall {a b : Type} (f : a → Except String b) :
    ∀ (l : List a), (∀ x ∈ l, ∃ y, f x = .ok y) → ∃ ys, exMapM f l = .ok ys := by
  intro l
  induction l with
  | nil => exact fun _ => ⟨[], rfl⟩
  | cons x rest ih =>
    intro h
    rcases h x (List.mem_cons_self x rest) with ⟨y, hy⟩
    rcases ih (fun z hz => h z (List.mem_cons_of_mem x hz)) with ⟨ys, hys⟩
    refine ⟨y :: ys, ?_⟩
    simp only [exMapM]
    rw [hy, hys]

theorem mem_insertStr (a x : String) (l : List String) :
    a ∈ insertStr x l ↔ a = x ∨ a ∈ l := by
  induction l with
  | nil => simp [insertStr]
  | cons y rest ih =>
    simp only [insertStr]
    by_cases h : pyStrLt y x
    · rw [if_pos h]
      simp only [List.mem_cons]
      rw [ih]
      tauto
    · rw [if_neg h]
      simp [List.mem_cons]

theorem mem_sortedStrings (a : String) (l : List String) :
    a ∈ sortedStrings l ↔ a ∈ l := by
  induction l with
  | nil => simp [sortedStrings]
  | cons x rest ih =>
    simp only [sortedStrings, List.mem_cons]
    rw [mem_insertStr, ih]

theorem mem_insertElem (a x : String × CFun) (l : List (String × CFun)) :
    a ∈ insertElem x l ↔ a = x ∨ a ∈ l := by
  induction l with
  | nil => simp [insertElem]
  | cons y rest ih =>
    simp only [insertElem]
    by_cases h : pyStrLt y.1 x.1
    · rw [if_pos h]
      simp only [List.mem_cons]
      rw [ih]
      tauto
    · rw [if_neg h]
      simp [List.mem_cons]

theorem mem_sortByCls (a : String × CFun) (l : List (String × CFun)) :
    a ∈ sortByCls l ↔ a ∈ l := by
  induction l with
  | nil => simp [sortByCls]
  | cons x rest ih =>
    simp only [sortByCls, List.mem_cons]
    rw [mem_insertElem, ih]

theorem mem_of_mem_takeWhileP {a : Type} (p : a → Bool) (l : List a) (x : a)
    (h : x ∈ l.takeWhile p) : x ∈ l := by
  induction l with
  | nil => simp [List.takeWhile] at h
  | cons y rest ih =>
    by_cases hp : p y = true
    · simp only [List.takeWhile, hp, List.mem_cons] at h
      rcases h with h1 | h2
      · simp [h1]
      · exact List.mem_cons_of_mem y (ih h2)
    · simp only [List.takeWhile] at h
      rw [Bool.not_eq_true] at hp
      rw [hp] at h
      simp at h

theorem mem_of_mem_dropWhileP {a : Type} (p : a → Bool) (l : List a) (x : a)
    (h : x ∈ l.dropWhile p) : x ∈ l := by
  induction l with
  | nil => simp [List.dropWhile] at h
  | cons y rest ih =>
    by_cases hp : p y = true
    · simp only [List.dropWhile, hp] at h
      exact List.mem_cons_of_mem y (ih h)
    · simp only [List.dropWhile] at h
      rw [Bool.not_eq_true] at hp
      rw [hp] at h
      simpa using h

theorem groupAdjFuel_mem (fuel : Nat) :
    ∀ (l : List (String × CFun)) (c : String) (ms : List CFun) (m : CFun),
      (c, ms) ∈ groupAdjFuel fuel l → m ∈ ms → (c, m) ∈ l := by
  induction fuel with
  | zero =>
    intro l c ms m h
    simp [groupAdjFuel] at h
  | succ fuel ih =>
    intro l c ms m h hm
    cases l with
    | nil => simp [groupAdjFuel] at h
    | cons e rest =>
      simp only [groupAdjFuel, List.mem_cons] at h
      rcases h with h1 | h2
      · have hc : c = e.1 := congrArg Prod.fst h1
        have hms : ms = e.2 :: (rest.takeWhile (fun d => d.1 = e.1)).map (fun d => d.2) :=
          congrArg Prod.snd h1
        rw [hms] at hm
        rcases List.mem_cons.mp hm with hm1 | hm2
        · rw [hc, hm1]
          exact List.mem_cons_self _ _
        · rcases List.mem_map.mp hm2 with ⟨d, hd, hdm⟩
          have hd2 := mem_of_mem_takeWhileP _ _ _ hd
          have hdc : d.1 = e.1 := by
            have hw := List.mem_takeWhile_imp hd
            simpa using hw
          have hcm : (c, m) = d := by
            rw [hc, ← hdc, ← hdm]
          rw [hcm]
          exact List.mem_cons_of_mem e hd2
      · exact List.mem_cons_of_mem e
          (mem_of_mem_dropWhileP _ _ _ (ih _ c ms m h2 hm))

theorem output_ctypes_cases (t2c : List (String × String)) (m : CFun) (its : List PyOut)
    (h : output_ctypes t2c m = .ok its) :
    (blacklist.contains m.met = true ∧ its = []) ∨
    (blacklist.contains m.met = false ∧
      ∃ args flags, its = [.ctypesDecl m.met args flags m.comment]) := by
  rw [output_ctypes] at h
  split at h
  next hb =>
    cases h
    exact Or.inl ⟨hb, rfl⟩
  next hb =>
    split at h
    · cases h
    next ptypes hex =>
      cases h
      exact Or.inr ⟨by simpa using hb, _, _, rfl⟩

theorem generate_enums_items (t2c : List (String × String)) (enums : List EnumDef)
    (its : List PyOut) (h : generate_enums t2c enums = .ok its) :
    ∀ it ∈ its, declaredMethodName it = none ∧ isCtypesItem it = false := by
  rw [generate_enums] at h
  split at h
  · cases h
  next items hex =>
    cases h
    intro it hit
    rcases List.mem_cons.mp hit with h1 | h2
    · rw [h1]
      exact ⟨rfl, rfl⟩
    · rcases exMapM_ok_mem _ _ _ hex it h2 with ⟨e, _, hfe⟩
      rw [enumClassItem] at hfe
      split at hfe
      · cases hfe
      · split at hfe
        · cases hfe
        · split at hfe
          · cases hfe
          next pairs hp =>
            cases hfe
            exact ⟨rfl, rfl⟩

theorem methodItems_mem (t2c pfx : List (String × String)) (ov : Overrides) (c : String)
    (m : CFun) (it : PyOut) (h : it ∈ methodItems t2c pfx ov c m) :
    declaredMethodName it = some m.met ∧ blacklist.contains m.met = false ∧
      isCtypesItem it = false := by
  simp only [methodItems] at h
  split at h
  next hb => simp at h
  next hb =>
    have hb2 : blacklist.contains m.met = false := by simpa using hb
    split at h
    next ho => simp at h
    next ho =>
      rcases List.mem_append.mp h with h1 | h2
      · rw [List.mem_singleton] at h1
        subst h1
        exact ⟨rfl, hb2, rfl⟩
      · split at h2
        · rw [List.mem_singleton] at h2
          subst h2
          exact ⟨rfl, hb2, rfl⟩
        · split at h2
          · rw [List.mem_singleton] at h2
            subst h2
            exact ⟨rfl, hb2, rfl⟩
          · simp at h2

theorem groupItems_mem (t2c pfx : List (String × String)) (ov : Overrides) (c : String)
    (ms : List CFun) (it : PyOut) (h : it ∈ groupItems t2c pfx ov c ms) :
    (declaredMethodName it = none ∧ isCtypesItem it = false) ∨
    ∃ m ∈ ms, declaredMethodName it = some m.met ∧ blacklist.contains m.met = false ∧
      isCtypesItem it = false := by
  simp only [groupItems, List.append_assoc] at h
  rcases List.mem_append.mp h with h1 | h
  · rw [List.mem_singleton] at h1
    subst h1
    exact Or.inl ⟨rfl, rfl⟩
  rcases List.mem_append.mp h with h1 | h
  · left
    split at h1
    · rw [List.mem_singleton] at h1
      subst h1
      exact ⟨rfl, rfl⟩
    · simp at h1
  rcases List.mem_append.mp h with h1 | h
  · left
    split at h1
    · simp at h1
    · rw [List.mem_singleton] at h1
      subst h1
      exact ⟨rfl, rfl⟩
  rcases List.mem_append.mp h with h1 | h
  · rw [List.mem_singleton] at h1
    subst h1
    exact Or.inl ⟨rfl, rfl⟩
  rcases List.mem_append.mp h with h1 | h
  · left
    split at h1
    · rw [List.mem_singleton] at h1
      subst h1
      exact ⟨rfl, rfl⟩
    · simp at h1
  · rcases List.mem_flatMap.mp h with ⟨m, hm, hit⟩
    rcases methodItems_mem t2c pfx ov c m it hit with ⟨hd, hb, hc⟩
    exact Or.inr ⟨m, hm, hd, hb, hc⟩

theorem elementsOf_mem (t2c : List (String × String)) (methods : List CFun)
    (c : String) (m : CFun) (h : (c, m) ∈ elementsOf t2c methods) :
    m ∈ methods ∧ wrapClassOf t2c m = some c := by
  rw [elementsOf, mem_sortByCls] at h
  rcases List.mem_filterMap.mp h with ⟨m0, hm0, hf⟩
  cases hw : wrapClassOf t2c m0 with
  | none =>
    rw [hw] at hf
    cases hf
  | some c0 =>
    rw [hw] at hf
    simp only [Option.map_some', Option.some.injEq] at hf
    have hc : c0 = c := congrArg Prod.fst hf
    have hm : m0 = m := congrArg Prod.snd hf
    subst hc
    subst hm
    exact ⟨hm0, hw⟩

theorem generate_wrappers_items_mem (t2c pfx : List (String × String)) (ov : Overrides)
    (methods : List CFun) (it : PyOut)
    (h : it ∈ (generate_wrappers t2c pfx ov methods).items) :
    isCtypesItem it = false ∧
    (declaredMethodName it = none ∨
      ∃ m ∈ methods, declaredMethodName it = some m.met ∧
        blacklist.contains m.met = false) := by
  simp only [generate_wrappers] at h
  rcases List.mem_flatMap.mp h with ⟨g, hg, hit⟩
  rcases groupItems_mem t2c pfx ov g.1 g.2 it hit with h1 | ⟨m, hm, hdm, hb, hc⟩
  · exact ⟨h1.2, Or.inl h1.1⟩
  · have hgm : (g.1, m) ∈ elementsOf t2c methods :=
      groupAdjFuel_mem _ _ g.1 g.2 m hg hm
    have he := elementsOf_mem t2c methods g.1 m hgm
    exact ⟨hc, Or.inr ⟨m, he.1, hdm, hb⟩⟩

theorem wrappedNames_not_blacklisted (t2c : List (String × String)) (methods : List CFun)
    (z : String) (h : z ∈ wrappedNames t2c methods) :
    blacklist.contains z = false := by
  rw [wrappedNames] at h
  rcases List.mem_filterMap.mp h with ⟨cm, _, hf⟩
  split at hf
  · cases hf
  next hb =>
    cases hf
    simpa using hb

theorem contains_eq_true_iff_mem (l : List String) (a : String) :
    l.contains a = true ↔ a ∈ l := by
  simp [List.contains, List.elem_iff]

/-! ## Claim theorems. -/

/-- C1: the claim says the single input line
`enum { RED, GREEN=5, BLUE };` yields one enum definition with members
RED=0, GREEN=5, BLUE=6 under the fixed anonymous-enum fallback name.  The
code disagrees: enum_re's name group is a mandatory non-whitespace token,
so the anonymous enum line does not match at all and parse_typedef yields
nothing; the `name is None` fallback branch (line 191) is unreachable.
The third conjunct shows the member machinery alone would indeed produce
exactly the claimed member list, isolating the defect to the name group. -/
theorem c1_anonymous_enum_dropped :
    reMatch enum_re "enum \x7b RED, GREEN=5, BLUE \x7d;" = none ∧
    parse_typedef ["enum \x7b RED, GREEN=5, BLUE \x7d;"] = .ok [] ∧
    enumMembersLoop (reSplit paramlist_re "RED, GREEN=5, BLUE") 0 =
      .ok [("RED", "0"), ("GREEN", "5"), ("BLUE", "6")] := by
  exact ⟨rfl, rfl, rfl⟩

/-- C7: the single-line tagged prototype
`VLC_PUBLIC_API int foo(const char * name);` preceded by a documentation
comment carrying the parameter tag yields the function declaration with
return type int, name foo, and parameter list exactly [("char*", "name")]:
const is dropped, the star joins the type, whitespace in the type token is
collapsed. -/
theorem c7_tagged_prototype_classified :
    parse_include
      ["/**", " * \\param name the label", " */",
       "VLC_PUBLIC_API int foo(const char * name);"] =
      .ok ([⟨"int", "foo", [("char*", "name")], "\\param name the label\n"⟩], []) := by
  exact rfl

/-- C10: the Python backend's eager type check quantifies over every parsed
function including blacklisted ones: constructing the generator over a
blacklisted function with an unmapped parameter type raises the mapping
error naming that type, function and parameter, although output_ctypes
would never emit that function. -/
theorem c10_blacklisted_still_checked :
    pythonGeneratorInit []
        [⟨"void", "libvlc_set_exit_handler", [("weird_t*", "cb")], ""⟩] =
      .error "No conversion for weird_t* (from libvlc_set_exit_handler:cb)" ∧
    blacklist.contains "libvlc_set_exit_handler" = true ∧
    output_ctypes type2classBase
        ⟨"void", "libvlc_set_exit_handler", [("weird_t*", "cb")], ""⟩ = .ok [] := by
  exact ⟨rfl, rfl, rfl⟩

/-- C2 counterexample: a function whose return type has no mapping entry
passes check_types untouched (only parameter types are examined), and
output_ctypes then emits the generic fallback FIXME_ text for it — the
claim that every return type resolves or emission fails with a named error
before any output, and that no unmapped type is emitted with a generic
fallback, is false. -/
theorem c2_return_type_unchecked_counterexample :
    check_types type2classBase [⟨"libvlc_mystery_t*", "libvlc_foo", [], ""⟩] = .ok () ∧
    List.lookup "libvlc_mystery_t*" type2classBase = none ∧
    output_ctypes type2classBase ⟨"libvlc_mystery_t*", "libvlc_foo", [], ""⟩ =
      .ok [.ctypesDecl "libvlc_foo" "FIXME_libvlc_mystery_t*" "" ""] := by
  exact ⟨rfl, rfl, rfl⟩

/-- C3 counterexample: running the full Python pipeline over a single
blacklisted function produces no wrapper and no ctypes declaration, but
the trailing summary of unwrapped methods lists its name — the claim that
a blacklisted name never appears in the unwrapped-summary listing is
false. -/
theorem c3_blacklisted_in_summary_counterexample :
    pythonGenerate [] [⟨"void", "libvlc_set_exit_handler", [("int", "x")], ""⟩]
        ⟨[], [], []⟩ =
      .ok [.headerCode, .enumBase, .footerCode, .summaryHeader 1,
           .summaryLines ["#  libvlc_set_exit_handler"]] := by
  exact rfl

/-- C4 counterexample: three pairwise distinct source type tokens receive a
non-input direction from paramFlag3 — int* and unsigned* both map to Out
and libvlc_exception_t* to InOut — so the claim that exactly two tokens
are assigned a non-input direction is false. -/
theorem c4_three_nonin_tokens_counterexample :
    paramFlag3 "int*" = [Flag.Out] ∧
    paramFlag3 "unsigned*" = [Flag.Out] ∧
    paramFlag3 "libvlc_exception_t*" = [Flag.InOut] ∧
    paramFlag3 "int*" ≠ [Flag.In] ∧
    paramFlag3 "unsigned*" ≠ [Flag.In] ∧
    paramFlag3 "libvlc_exception_t*" ≠ [Flag.In] ∧
    ("int*" : String) ≠ "unsigned*" ∧
    ("int*" : String) ≠ "libvlc_exception_t*" ∧
    ("unsigned*" : String) ≠ "libvlc_exception_t*" := by
  refine ⟨rfl, rfl, rfl, ?_, ?_, ?_, ?_, ?_, ?_⟩ <;> decide

/-- C6 counterexample: a member declared with a hexadecimal value is stored
textually and the Python enum emission re-encodes that text verbatim: the
`_names` dictionary line for A=0x10 reads `0x10: 'A',`, not the decimal
`16: 'A',` the claim asserts (while denoting the same integer 16). -/
theorem c6_hex_not_decimal_counterexample :
    enumMembersLoop (reSplit paramlist_re "A=0x10, B") 0 =
      .ok [("A", "0x10"), ("B", "17")] ∧
    generate_enums (("libvlc_x_t", "X") :: type2classBase)
        [⟨"enum", "libvlc_x_t", [("A", "0x10"), ("B", "17")], ""⟩] =
      .ok [.enumBase,
           .enumClass "X" "" ["        0x10: 'A',", "        17: 'B',"]
             ["X.A=X(0x10)", "X.B=X(17)"]] ∧
    pyIntHex "0x10" = some 16 ∧
    enumNamesLine "0x10" "A" ≠ enumNamesLine "16" "A" := by
  refine ⟨rfl, rfl, rfl, ?_⟩
  decide

/-- C3 (amended): for every function whose name is in the fixed blacklist,
no emitted declaration binds that name — it never appears as a wrapped
class method, a synthesized len/getitem capability, or a free ctypes
declaration — but, because blacklisted functions are never added to the
wrapped set, the name does appear in the trailing summary listing of
unwrapped method names. -/
theorem c3_blacklist_amended (t2c pfx : List (String × String)) (ov : Overrides)
    (enums : List EnumDef) (methods : List CFun) (items : List PyOut)
    (n : String) (m : CFun)
    (hb : blacklist.contains n = true) (hm : m ∈ methods) (hname : m.met = n)
    (hsave : save t2c pfx ov enums methods = .ok items) :
    (∀ it ∈ items, declaredMethodName it ≠ some n) ∧
    (∃ entries, PyOut.summaryLines entries ∈ items ∧ ("#  " ++ n) ∈ entries) := by
  rw [save] at hsave
  split at hsave
  · cases hsave
  next enumItems hge =>
    split at hsave
    · cases hsave
    next cts hcts =>
      cases hsave
      constructor
      · intro it hit hd
        rcases List.mem_append.mp hit with hit | hsm
        rcases List.mem_append.mp hit with hit | hft
        rcases List.mem_append.mp hit with hit | hct
        rcases List.mem_append.mp hit with hit | hwi
        rcases List.mem_append.mp hit with hhd | hen
        · rw [List.mem_singleton] at hhd
          subst hhd
          cases hd
        · have := (generate_enums_items t2c enums enumItems hge it hen).1
          rw [this] at hd
          cases hd
        · rcases generate_wrappers_items_mem t2c pfx ov methods it hwi with ⟨_, hc1 | hc2⟩
          · rw [hc1] at hd
            cases hd
          · rcases hc2 with ⟨m2, _, hdm2, hb2⟩
            rw [hdm2] at hd
            have : m2.met = n := by
              simpa using hd
            rw [this] at hb2
            rw [hb2] at hb
            cases hb
        · rcases List.mem_flatten.mp hct with ⟨its2, hits2, hit2⟩
          rcases exMapM_ok_mem _ _ _ hcts its2 hits2 with ⟨m2, _, hout⟩
          rcases output_ctypes_cases t2c m2 its2 hout with ⟨_, hnil⟩ | ⟨hb2, args, flags, heq⟩
          · rw [hnil] at hit2
            simp at hit2
          · rw [heq, List.mem_singleton] at hit2
            subst hit2
            have : m2.met = n := by
              simpa [declaredMethodName] using hd
            rw [this] at hb2
            rw [hb2] at hb
            cases hb
        · rw [List.mem_singleton] at hft
          subst hft
          cases hd
        · rw [summaryItems] at hsm
          split at hsm
          · rcases List.mem_cons.mp hsm with h1 | h2
            · subst h1
              cases hd
            · rw [List.mem_singleton] at h2
              subst h2
              cases hd
          · simp at hsm
      · have hma : (if wrapEmitted t2c pfx ov m then setSelf m else m) ∈
            (generate_wrappers t2c pfx ov methods).methodsAfter := by
          simp only [generate_wrappers, mutateMethods]
          exact List.mem_map_of_mem _ hm
        have hmet : (if wrapEmitted t2c pfx ov m then setSelf m else m).met = n := by
          split
          · rw [← hname]
            rfl
          · exact hname
        have hwc : (generate_wrappers t2c pfx ov methods).wrapped.contains n = false := by
          cases hcase : (generate_wrappers t2c pfx ov methods).wrapped.contains n with
          | false => rfl
          | true =>
            have hmemw : n ∈ (generate_wrappers t2c pfx ov methods).wrapped :=
              (contains_eq_true_iff_mem _ n).mp hcase
            have := wrappedNames_not_blacklisted t2c methods n hmemw
            rw [this] at hb
            cases hb
        have hmemu : ("#  " ++ n) ∈
            (generate_wrappers t2c pfx ov methods).methodsAfter.filterMap (fun m2 =>
              if (generate_wrappers t2c pfx ov methods).wrapped.contains m2.met then none
              else some ("#  " ++ m2.met)) := by
          apply List.mem_filterMap.mpr
          refine ⟨_, hma, ?_⟩
          rw [hmet, if_neg (by rw [hwc]; exact Bool.false_ne_true)]
        refine ⟨sortedStrings ((generate_wrappers t2c pfx ov methods).methodsAfter.filterMap
          (fun m2 => if (generate_wrappers t2c pfx ov methods).wrapped.contains m2.met
            then none else some ("#  " ++ m2.met))), ?_, ?_⟩
        · have hne : (generate_wrappers t2c pfx ov methods).methodsAfter.filterMap (fun m2 =>
              if (generate_wrappers t2c pfx ov methods).wrapped.contains m2.met then none
              else some ("#  " ++ m2.met)) ≠ [] := List.ne_nil_of_mem hmemu
          apply List.mem_append.mpr
          right
          rw [summaryItems, if_pos hne]
          exact List.mem_cons_of_mem _ (List.mem_singleton.mpr rfl)
        · exact (mem_sortedStrings _ _).mpr hmemu

/-- Witness for c3_blacklist_amended at the concrete single-function input. -/
theorem c3_blacklist_amended_witness :
    (∀ it ∈ [PyOut.headerCode, PyOut.enumBase, PyOut.footerCode, PyOut.summaryHeader 1,
        PyOut.summaryLines ["#  libvlc_set_exit_handler"]],
      declaredMethodName it ≠ some "libvlc_set_exit_handler") ∧
    (∃ entries, PyOut.summaryLines entries ∈
        [PyOut.headerCode, PyOut.enumBase, PyOut.footerCode, PyOut.summaryHeader 1,
         PyOut.summaryLines ["#  libvlc_set_exit_handler"]] ∧
      ("#  " ++ "libvlc_set_exit_handler") ∈ entries) :=
  c3_blacklist_amended type2classBase (prefixesOf type2classBase) ⟨[], [], []⟩ []
    [⟨"void", "libvlc_set_exit_handler", [("int", "x")], ""⟩] _
    "libvlc_set_exit_handler" ⟨"void", "libvlc_set_exit_handler", [("int", "x")], ""⟩
    rfl (List.mem_singleton.mpr rfl) rfl rfl

theorem checkTypesParams_ok_iff (t2c : List (String × String)) (met : String)
    (ps : List (String × String)) :
    checkTypesParams t2c met ps = .ok () ↔
      ∀ p ∈ ps, (List.lookup p.1 t2c).isSome = true := by
  induction ps with
  | nil => simp [checkTypesParams]
  | cons p rest ih =>
    simp only [checkTypesParams]
    by_cases h : (List.lookup p.1 t2c).isSome = true
    · rw [if_pos h, ih]
      constructor
      · intro hall q hq
        rcases List.mem_cons.mp hq with h1 | h2
        · rw [h1]
          exact h
        · exact hall q h2
      · intro hall q hq
        exact hall q (List.mem_cons_of_mem p hq)
    · rw [if_neg h]
      constructor
      · intro hfalse
        cases hfalse
      · intro hall
        exact absurd (hall p (List.mem_cons_self p rest)) h

theorem checkTypesParams_error (t2c : List (String × String)) (met msg : String)
    (ps : List (String × String)) (h : checkTypesParams t2c met ps = .error msg) :
    ∃ p ∈ ps, List.lookup p.1 t2c = none ∧ msg = noConversionMsg p.1 met p.2 := by
  induction ps with
  | nil => simp [checkTypesParams] at h
  | cons p rest ih =>
    simp only [checkTypesParams] at h
    by_cases hp : (List.lookup p.1 t2c).isSome = true
    · rw [if_pos hp] at h
      rcases ih h with ⟨q, hq, h1, h2⟩
      exact ⟨q, List.mem_cons_of_mem p hq, h1, h2⟩
    · rw [if_neg hp] at h
      refine ⟨p, List.mem_cons_self p rest, ?_, ?_⟩
      · cases hc : List.lookup p.1 t2c with
        | none => rfl
        | some v =>
          rw [hc] at hp
          simp at hp
      · cases h
        rfl

theorem check_types_ok_iff (t2c : List (String × String)) (methods : List CFun) :
    check_types t2c methods = .ok () ↔
      ∀ m ∈ methods, ∀ p ∈ m.params, (List.lookup p.1 t2c).isSome = true := by
  induction methods with
  | nil => simp [check_types]
  | cons m rest ih =>
    simp only [check_types]
    cases hc : checkTypesParams t2c m.met m.params with
    | error e =>
      constructor
      · intro hfalse
        cases hfalse
      · intro hall
        have := (checkTypesParams_ok_iff t2c m.met m.params).mpr
          (hall m (List.mem_cons_self m rest))
        rw [hc] at this
        cases this
    | ok u =>
      cases u
      rw [ih]
      constructor
      · intro hall q hq
        rcases List.mem_cons.mp hq with h1 | h2
        · rw [h1]
          exact (checkTypesParams_ok_iff t2c m.met m.params).mp hc
        · exact hall q h2
      · intro hall q hq
        exact hall q (List.mem_cons_of_mem m hq)

theorem check_types_error (t2c : List (String × String)) (methods : List CFun)
    (msg : String) (h : check_types t2c methods = .error msg) :
    ∃ m ∈ methods, ∃ p ∈ m.params, List.lookup p.1 t2c = none ∧
      msg = noConversionMsg p.1 m.met p.2 := by
  induction methods with
  | nil => simp [check_types] at h
  | cons m rest ih =>
    simp only [check_types] at h
    cases hc : checkTypesParams t2c m.met m.params with
    | error e =>
      rw [hc] at h
      cases h
      rcases checkTypesParams_error t2c m.met msg m.params hc with ⟨p, hp, h1, h2⟩
      exact ⟨m, List.mem_cons_self m rest, p, hp, h1, h2⟩
    | ok u =>
      cases u
      rw [hc] at h
      rcases ih h with ⟨m2, hm2, p, hp, h1, h2⟩
      exact ⟨m2, List.mem_cons_of_mem m hm2, p, hp, h1, h2⟩

theorem joinSep_cons_startsWith (sep x : String) (l : List String) :
    pyStartsWith (joinSep sep (x :: l)) x = true := by
  cases l with
  | nil =>
    rw [joinSep, pyStartsWith]
    exact List.isPrefixOf_iff_prefix.mpr (List.prefix_refl _)
  | cons y rest =>
    rw [joinSep, pyStartsWith]
    apply List.isPrefixOf_iff_prefix.mpr
    rw [String.data_append, String.data_append]
    rw [List.append_assoc]
    exact List.prefix_append _ _

theorem output_ctypes_fixme (t2c : List (String × String)) (m : CFun)
    (hb : blacklist.contains m.met = false)
    (hp : ∀ p ∈ m.params, (List.lookup p.1 t2c).isSome = true)
    (hr : List.lookup m.rtype t2c = none) :
    ∃ args flags, output_ctypes t2c m = .ok [.ctypesDecl m.met args flags m.comment] ∧
      pyStartsWith args ("FIXME_" ++ m.rtype) = true := by
  have hex : ∃ ts, exMapM (fun p : String × String =>
      match List.lookup p.1 t2c with
      | some c => Except.ok c
      | none => Except.error ("KeyError: " ++ p.1)) m.params = .ok ts := by
    apply exMapM_ok_of_forall
    intro p hpm
    cases hc : List.lookup p.1 t2c with
    | none =>
      have := hp p hpm
      rw [hc] at this
      simp at this
    | some v => exact ⟨v, rfl⟩
  rcases hex with ⟨ts, hts⟩
  refine ⟨joinSep ", " (("FIXME_" ++ m.rtype) :: ts),
    (if joinSep ", " (m.params.map (fun p => flagTupleStr (paramFlag3 p.1))) ≠ "" then
       joinSep ", " (m.params.map (fun p => flagTupleStr (paramFlag3 p.1))) ++ ","
     else joinSep ", " (m.params.map (fun p => flagTupleStr (paramFlag3 p.1)))), ?_, ?_⟩
  · rw [output_ctypes, if_neg (by rw [hb]; exact Bool.false_ne_true), hts, hr]
    rfl
  · exact joinSep_cons_startsWith ", " ("FIXME_" ++ m.rtype) ts

/-- C2 (amended): the eager check of the Python backend covers exactly the
parameter types: construction succeeds iff every parameter type of every
parsed method has a mapping entry, and on failure the error names the
offending type, function and parameter; the return type is never checked,
and a method whose return type is unmapped is emitted with the generic
FIXME_ fallback at the head of its CFUNCTYPE argument list. -/
theorem c2_type_check_amended (t2c : List (String × String)) (methods : List CFun) :
    (check_types t2c methods = .ok () ↔
      ∀ m ∈ methods, ∀ p ∈ m.params, (List.lookup p.1 t2c).isSome = true) ∧
    (∀ msg, check_types t2c methods = .error msg →
      ∃ m ∈ methods, ∃ p ∈ m.params, List.lookup p.1 t2c = none ∧
        msg = noConversionMsg p.1 m.met p.2) ∧
    (∀ m : CFun, blacklist.contains m.met = false →
      (∀ p ∈ m.params, (List.lookup p.1 t2c).isSome = true) →
      List.lookup m.rtype t2c = none →
      ∃ args flags, output_ctypes t2c m = .ok [.ctypesDecl m.met args flags m.comment] ∧
        pyStartsWith args ("FIXME_" ++ m.rtype) = true) :=
  ⟨check_types_ok_iff t2c methods,
   fun msg h => check_types_error t2c methods msg h,
   fun m hb hp hr => output_ctypes_fixme t2c m hb hp hr⟩

/-- Witness for c2_type_check_amended at a concrete table and method list. -/
theorem c2_type_check_amended_witness :
    check_types type2classBase
      [⟨"libvlc_mystery_t*", "libvlc_foo", [("int", "x")], ""⟩] = .ok () ∧
    ∃ args flags,
      output_ctypes type2classBase
        ⟨"libvlc_mystery_t*", "libvlc_foo", [("int", "x")], ""⟩ =
          .ok [.ctypesDecl "libvlc_foo" args flags ""] ∧
      pyStartsWith args ("FIXME_" ++ "libvlc_mystery_t*") = true := by
  have h := c2_type_check_amended type2classBase
    [⟨"libvlc_mystery_t*", "libvlc_foo", [("int", "x")], ""⟩]
  constructor
  · exact h.1.mpr (by decide)
  · exact h.2.2 ⟨"libvlc_mystery_t*", "libvlc_foo", [("int", "x")], ""⟩
      (by decide) (by decide) (by decide)

/-- C4 (amended): exactly three source type tokens are assigned a non-input
direction — int* and unsigned* map to Out and libvlc_exception_t* to InOut —
and every other type token receives the 1-tuple (In,). -/
theorem c4_direction_classifier (t : String)
    (h1 : t ≠ "int*") (h2 : t ≠ "unsigned*") (h3 : t ≠ "libvlc_exception_t*") :
    paramFlag3 t = [Flag.In] ∧
    paramFlag3 "int*" = [Flag.Out] ∧
    paramFlag3 "unsigned*" = [Flag.Out] ∧
    paramFlag3 "libvlc_exception_t*" = [Flag.InOut] := by
  refine ⟨?_, rfl, rfl, rfl⟩
  have b1 : (t == "int*") = false := beq_eq_false_iff_ne.mpr h1
  have b2 : (t == "unsigned*") = false := beq_eq_false_iff_ne.mpr h2
  have b3 : (t == "libvlc_exception_t*") = false := beq_eq_false_iff_ne.mpr h3
  simp [paramFlag3, List.lookup, b1, b2, b3]

/-- Witness for c4_direction_classifier at the token char*. -/
theorem c4_direction_classifier_witness :
    paramFlag3 "char*" = [Flag.In] ∧
    paramFlag3 "int*" = [Flag.Out] ∧
    paramFlag3 "unsigned*" = [Flag.Out] ∧
    paramFlag3 "libvlc_exception_t*" = [Flag.InOut] :=
  c4_direction_classifier "char*" (by decide) (by decide) (by decide)

theorem summaryItems_no_ctypes (w : WrapResult) (it : PyOut)
    (h : it ∈ summaryItems w) : isCtypesItem it = false := by
  rw [summaryItems] at h
  split at h
  · rcases List.mem_cons.mp h with h1 | h2
    · subst h1
      rfl
    · rw [List.mem_singleton] at h2
      subst h2
      rfl
  · simp at h

/-- C9: generate_wrappers rewrites, in the stored method list it shares
with the parser, the first parameter of every method for which it emits a
wrapper, renaming it to the self token; methods that do not reach the
wrapper emission are untouched, and save's subsequent ctypes phase reads
exactly this mutated list (its ctypes declarations are computed from
methodsAfter, not from the original methods). -/
theorem c9_wrapper_mutation (t2c pfx : List (String × String)) (ov : Overrides)
    (methods : List CFun) :
    ((generate_wrappers t2c pfx ov methods).methodsAfter.length = methods.length) ∧
    (∀ (i : Nat) (m : CFun), methods[i]? = some m →
      (wrapEmitted t2c pfx ov m = true →
        (generate_wrappers t2c pfx ov methods).methodsAfter[i]? = some (setSelf m) ∧
        ∀ p ps, m.params = p :: ps →
          (setSelf m).params = (p.1, "self") :: ps ∧ (setSelf m).met = m.met) ∧
      (wrapEmitted t2c pfx ov m = false →
        (generate_wrappers t2c pfx ov methods).methodsAfter[i]? = some m)) ∧
    (∀ (enums : List EnumDef) (items : List PyOut),
      save t2c pfx ov enums methods = .ok items →
      ∃ cts, exMapM (output_ctypes t2c)
          (generate_wrappers t2c pfx ov methods).methodsAfter = .ok cts ∧
        items.filter isCtypesItem = cts.flatten) := by
  refine ⟨?_, ?_, ?_⟩
  · simp [generate_wrappers, mutateMethods]
  · intro i m hi
    constructor
    · intro hw
      constructor
      · simp only [generate_wrappers, mutateMethods, List.getElem?_map, hi,
          Option.map_some']
        rw [if_pos hw]
      · intro p ps hp
        constructor
        · simp [setSelf, hp]
        · rfl
    · intro hw
      simp only [generate_wrappers, mutateMethods, List.getElem?_map, hi,
        Option.map_some']
      rw [if_neg (by rw [hw]; exact Bool.false_ne_true)]
  · intro enums items hsave
    rw [save] at hsave
    split at hsave
    · cases hsave
    next enumItems hge =>
      split at hsave
      · cases hsave
      next cts hcts =>
        cases hsave
        refine ⟨cts, hcts, ?_⟩
        rw [List.filter_append, List.filter_append, List.filter_append,
          List.filter_append, List.filter_append]
        have e1 : List.filter isCtypesItem [PyOut.headerCode] = [] := rfl
        have e2 : List.filter isCtypesItem enumItems = [] := by
          rw [List.filter_eq_nil_iff]
          intro it hit
          rw [(generate_enums_items t2c enums enumItems hge it hit).2]
          exact Bool.false_ne_true
        have e3 : List.filter isCtypesItem
            (generate_wrappers t2c pfx ov methods).items = [] := by
          rw [List.filter_eq_nil_iff]
          intro it hit
          rw [(generate_wrappers_items_mem t2c pfx ov methods it hit).1]
          exact Bool.false_ne_true
        have e4 : List.filter isCtypesItem cts.flatten = cts.flatten := by
          rw [List.filter_eq_self]
          intro it hit
          rcases List.mem_flatten.mp hit with ⟨its2, hits2, hit2⟩
          rcases exMapM_ok_mem _ _ _ hcts its2 hits2 with ⟨m2, _, hout⟩
          rcases output_ctypes_cases t2c m2 its2 hout with ⟨_, hnil⟩ | ⟨_, args, flags, heq⟩
          · rw [hnil] at hit2
            simp at hit2
          · rw [heq, List.mem_singleton] at hit2
            subst hit2
            rfl
        have e5 : List.filter isCtypesItem [PyOut.footerCode] = [] := rfl
        have e6 : List.filter isCtypesItem
            (summaryItems (generate_wrappers t2c pfx ov methods)) = [] := by
          rw [List.filter_eq_nil_iff]
          intro it hit
          rw [summaryItems_no_ctypes _ it hit]
          exact Bool.false_ne_true
        rw [e1, e2, e3, e4, e5, e6]
        simp

/-- Witness for c9_wrapper_mutation at a concrete one-method input: the
post-wrapper state carries self as the first parameter name and the ctypes
phase consumes that state. -/
theorem c9_wrapper_mutation_witness :
    (generate_wrappers type2classBase (prefixesOf type2classBase) ⟨[], [], []⟩
        [⟨"void", "libvlc_media_player_play",
          [("libvlc_media_player_t*", "p_mi")], ""⟩]).methodsAfter[0]? =
      some (setSelf ⟨"void", "libvlc_media_player_play",
        [("libvlc_media_player_t*", "p_mi")], ""⟩) ∧
    (setSelf ⟨"void", "libvlc_media_player_play",
        [("libvlc_media_player_t*", "p_mi")], ""⟩).params =
      [("libvlc_media_player_t*", "self")] ∧
    (∃ cts, exMapM (output_ctypes type2classBase)
        (generate_wrappers type2classBase (prefixesOf type2classBase) ⟨[], [], []⟩
          [⟨"void", "libvlc_media_player_play",
            [("libvlc_media_player_t*", "p_mi")], ""⟩]).methodsAfter = .ok cts ∧
      List.filter isCtypesItem
        [PyOut.headerCode, PyOut.enumBase, PyOut.classHeader "MediaPlayer",
         PyOut.newBoiler "MediaPlayer", PyOut.fromParamBoiler "MediaPlayer",
         PyOut.wrapMethod "MediaPlayer" "libvlc_media_player_play" "play" "self" "",
         PyOut.ctypesDecl "libvlc_media_player_play" "None, MediaPlayer" "(1,)," "",
         PyOut.footerCode] = cts.flatten) := by
  have h := c9_wrapper_mutation type2classBase (prefixesOf type2classBase) ⟨[], [], []⟩
    [⟨"void", "libvlc_media_player_play", [("libvlc_media_player_t*", "p_mi")], ""⟩]
  have h2 := (h.2.1 0 ⟨"void", "libvlc_media_player_play",
    [("libvlc_media_player_t*", "p_mi")], ""⟩ rfl).1 rfl
  refine ⟨h2.1, (h2.2 ("libvlc_media_player_t*", "p_mi") [] rfl).1, ?_⟩
  exact h.2.2 [] _ rfl

theorem enumMembersLoop_implicit (pieces : List String) :
    ∀ (val : Int), (∀ l ∈ pieces, implicitPiece l) →
      enumMembersLoop pieces val = .ok (implicitSpec val pieces) := by
  induction pieces with
  | nil =>
    intro val _
    rfl
  | cons l rest ih =>
    intro val h
    obtain ⟨hstrip, hne, heq, hcm⟩ := h l (List.mem_cons_self l rest)
    have hrest := ih (val + 1) (fun q hq => h q (List.mem_cons_of_mem l hq))
    simp only [enumMembersLoop]
    rw [hstrip, hcm, heq]
    simp only [Bool.false_eq_true, if_false]
    rw [if_pos hne, hrest]
    rfl

theorem implicitSpec_snd (pieces : List String) :
    ∀ (val : Int), (implicitSpec val pieces).map Prod.snd =
      (List.range pieces.length).map (fun i : Nat => toString (val + (i : Int))) := by
  induction pieces with
  | nil =>
    intro val
    rfl
  | cons l rest ih =>
    intro val
    show toString val :: (implicitSpec (val + 1) rest).map Prod.snd =
      (List.range (rest.length + 1)).map (fun i : Nat => toString (val + (i : Int)))
    rw [List.range_succ_eq_map, List.map_cons, List.map_map, ih (val + 1)]
    congr 1
    · norm_num
    · apply List.map_congr_left
      intro i _
      simp only [Function.comp_apply]
      congr 1
      push_cast
      ring

theorem enumMembersLoop_explicit (piece n v : String) (w : Int) (rest : List String)
    (val : Int) (tail : List (String × String))
    (hstrip : pyStrip piece = piece) (hcm : pyStartsWith piece "/*" = false)
    (heq : pyIn "=" piece = true) (hsplit : reSplit eqsplit_re piece = [n, v])
    (hparse : (if pyStartsWith v "0x" then pyIntHex v else pyIntDec v) = some w)
    (htail : enumMembersLoop rest (w + 1) = .ok tail) :
    enumMembersLoop (piece :: rest) val = .ok ((n, v) :: tail) := by
  simp only [enumMembersLoop]
  rw [hstrip, hcm, heq]
  simp only [Bool.false_eq_true, if_false, if_true]
  rw [hsplit]
  dsimp only
  rw [hparse]
  dsimp only
  rw [htail]

/-- C5: the running counter of the enum member loop starts at 0 and, for
member lists lacking explicit values, assigns precisely 0, 1, 2, ... in
order; an explicit `= value` member is parsed as hexadecimal exactly when
its text starts with the 0x prefix (decimal otherwise), stores its text,
and resets the counter so that the next member continues from the parsed
value plus one — the counter advancing by one after every member whether
or not its value was explicit. -/
theorem c5_running_counter :
    (∀ pieces : List String, (∀ l ∈ pieces, implicitPiece l) →
      enumMembersLoop pieces 0 = .ok (implicitSpec 0 pieces)) ∧
    (∀ (pieces : List String) (val : Int),
      (implicitSpec val pieces).map Prod.snd =
        (List.range pieces.length).map (fun i : Nat => toString (val + (i : Int)))) ∧
    (∀ (piece n v : String) (w : Int) (rest : List String) (val : Int)
      (tail : List (String × String)),
      pyStrip piece = piece → pyStartsWith piece "/*" = false →
      pyIn "=" piece = true → reSplit eqsplit_re piece = [n, v] →
      (if pyStartsWith v "0x" then pyIntHex v else pyIntDec v) = some w →
      enumMembersLoop rest (w + 1) = .ok tail →
      enumMembersLoop (piece :: rest) val = .ok ((n, v) :: tail)) :=
  ⟨fun pieces h => enumMembersLoop_implicit pieces 0 h,
   fun pieces val => implicitSpec_snd pieces val,
   fun piece n v w rest val tail h1 h2 h3 h4 h5 h6 =>
     enumMembersLoop_explicit piece n v w rest val tail h1 h2 h3 h4 h5 h6⟩

/-- Witness for c5_running_counter: an all-implicit list gets 0,1,2 and an
explicit hex member resets the counter for its successor. -/
theorem c5_running_counter_witness :
    enumMembersLoop ["RED", "GREEN", "BLUE"] 0 =
      .ok [("RED", "0"), ("GREEN", "1"), ("BLUE", "2")] ∧
    enumMembersLoop ["GREEN=0x10", "BLUE"] 0 = .ok [("GREEN", "0x10"), ("BLUE", "17")] := by
  constructor
  · have h := (c5_running_counter.1 ["RED", "GREEN", "BLUE"] (by decide))
    rw [h]
    rfl
  · exact c5_running_counter.2.2 "GREEN=0x10" "GREEN" "0x10" 16 ["BLUE"] 0 [("BLUE", "17")]
      (by decide) (by decide) (by decide) (by decide) (by decide) (by rfl)

theorem exMapM_attr (pyname : String) (vs : List (String × String))
    (h : ∀ kv ∈ vs, (enumAttrName kv.1).isSome = true) :
    exMapM (fun kv : String × String =>
      match enumAttrName kv.1 with
      | none => Except.error "IndexError: empty symbol"
      | some n => Except.ok (enumNamesLine kv.2 n, enumAttrLine pyname n kv.2)) vs =
    .ok (vs.map (fun kv => (enumNamesLine kv.2 ((enumAttrName kv.1).getD ""),
      enumAttrLine pyname ((enumAttrName kv.1).getD "") kv.2))) := by
  induction vs with
  | nil => rfl
  | cons kv rest ih =>
    have hk := h kv (List.mem_cons_self kv rest)
    simp only [exMapM]
    cases hc : enumAttrName kv.1 with
    | none =>
      rw [hc] at hk
      simp at hk
    | some nm =>
      rw [ih (fun q hq => h q (List.mem_cons_of_mem kv hq))]
      simp [hc]

theorem enumClassItem_ok (t2c : List (String × String)) (e : EnumDef) (pyname : String)
    (ht : e.typ = "enum") (hp : List.lookup e.ename t2c = some pyname)
    (hattr : ∀ kv ∈ e.values, (enumAttrName kv.1).isSome = true) :
    enumClassItem t2c e = .ok (PyOut.enumClass pyname e.comment
      (e.values.map (fun kv => enumNamesLine kv.2 ((enumAttrName kv.1).getD "")))
      (sortedStrings (e.values.map (fun kv =>
        enumAttrLine pyname ((enumAttrName kv.1).getD "") kv.2)))) := by
  rw [enumClassItem, if_neg (by simp [ht]), hp]
  dsimp only
  rw [exMapM_attr pyname e.values hattr]
  dsimp only
  rw [List.map_map, List.map_map]
  rfl

/-- C6 (amended): decoding stores each member's declared value text
verbatim — an explicit member (n, v) is stored exactly as its source text,
a hex value included — and the Python enum emission re-encodes each stored
value text verbatim into both the _names dictionary line and the attribute
line; the value is never rewritten to its decimal equivalent, and the
attribute name is derived from the symbol by the trailing-underscore-component
conversion. -/
theorem c6_value_text_roundtrip (t2c : List (String × String)) (e : EnumDef)
    (pyname : String) (ht : e.typ = "enum")
    (hp : List.lookup e.ename t2c = some pyname)
    (hattr : ∀ kv ∈ e.values, (enumAttrName kv.1).isSome = true) :
    (generate_enums t2c [e] = .ok [PyOut.enumBase,
      PyOut.enumClass pyname e.comment
        (e.values.map (fun kv => enumNamesLine kv.2 ((enumAttrName kv.1).getD "")))
        (sortedStrings (e.values.map (fun kv =>
          enumAttrLine pyname ((enumAttrName kv.1).getD "") kv.2)))]) ∧
    (∀ (piece n v : String) (w : Int) (rest : List String) (val : Int)
      (tail : List (String × String)),
      pyStrip piece = piece → pyStartsWith piece "/*" = false →
      pyIn "=" piece = true → reSplit eqsplit_re piece = [n, v] →
      (if pyStartsWith v "0x" then pyIntHex v else pyIntDec v) = some w →
      enumMembersLoop rest (w + 1) = .ok tail →
      enumMembersLoop (piece :: rest) val = .ok ((n, v) :: tail)) := by
  constructor
  · rw [generate_enums]
    simp only [exMapM]
    rw [enumClassItem_ok t2c e pyname ht hp hattr]
  · exact fun piece n v w rest val tail h1 h2 h3 h4 h5 h6 =>
      enumMembersLoop_explicit piece n v w rest val tail h1 h2 h3 h4 h5 h6

/-- Witness for c6_value_text_roundtrip: the hex member A=0x10 is emitted
with its hex text verbatim. -/
theorem c6_value_text_roundtrip_witness :
    generate_enums (("libvlc_x_t", "X") :: type2classBase)
        [⟨"enum", "libvlc_x_t", [("A", "0x10"), ("B", "17")], ""⟩] =
      .ok [PyOut.enumBase,
        PyOut.enumClass "X" ""
          ([("A", "0x10"), ("B", "17")].map (fun kv : String × String =>
            enumNamesLine kv.2 ((enumAttrName kv.1).getD "")))
          (sortedStrings ([("A", "0x10"), ("B", "17")].map (fun kv : String × String =>
            enumAttrLine "X" ((enumAttrName kv.1).getD "") kv.2)))] :=
  (c6_value_text_roundtrip (("libvlc_x_t", "X") :: type2classBase)
    ⟨"enum", "libvlc_x_t", [("A", "0x10"), ("B", "17")], ""⟩ "X"
    rfl rfl (by decide)).1

theorem mkBadnames_getD (np : Nat) (names : List String) (i : Nat) (hi : i < np) :
    (mkBadnames np names).getD i "" =
      (if i < names.length then names.getD i "" else "param" ++ toString i) := by
  rw [mkBadnames, List.getD_eq_getElem?_getD, List.getElem?_map, List.getElem?_range hi]
  dsimp only [Option.map_some', Option.getD_some]
  by_cases hn : i < names.length
  · rw [if_pos hn]
    rw [List.get?_eq_getElem?, List.getElem?_eq_getElem hn]
    rw [List.getD_eq_getElem?_getD, List.getElem?_eq_getElem hn]
    rfl
  · rw [if_neg hn]
    rw [List.get?_eq_getElem?, List.getElem?_eq_none (Nat.le_of_not_lt hn)]

theorem enum_map_proj_fst (params : List (String × String)) (g : Nat → String) :
    (params.enum.map (fun ip => (ip.2.1, g ip.1))).map Prod.fst = params.map Prod.fst := by
  rw [List.map_map]
  have : (Prod.fst ∘ fun ip : Nat × (String × String) => (ip.2.1, g ip.1)) =
      (Prod.fst ∘ (Prod.snd : Nat × (String × String) → String × String)) := by
    funext ip
    rfl
  rw [this, ← List.map_map, List.enum_eq_enumFrom, List.enumFrom_map_snd]

/-- C8: for a function declaration with at least one empty parameter name,
documentation-based name recovery yields a name sequence of exactly the
original length with the parameter types untouched; when fewer tags exist
than parameters, tag-recovered names keep their zero-based positions,
every missing position receives the zero-based param<i> placeholder, and
the defect report carries the function name and the newline-flattened raw
documentation (the recovery is a total function — generation continues);
with enough tags, no report is produced and position i receives tag i. -/
theorem c8_name_recovery (met comment : String) (params : List (String × String))
    (h : params.any (fun p => p.2 = "") = true) :
    ((recoverParams met params comment).1.length = params.length) ∧
    ((recoverParams met params comment).1.map Prod.fst = params.map Prod.fst) ∧
    ((commentParamNames comment).length < params.length →
      (recoverParams met params comment).2 =
        some ("### Cannot get parameter names from comment for " ++ met ++ ": "
          ++ pyReplace comment "\n" " ") ∧
      ∀ (i : Nat), i < params.length →
        ((recoverParams met params comment).1[i]?).map Prod.snd =
          some (if i < (commentParamNames comment).length
            then (commentParamNames comment).getD i ""
            else "param" ++ toString i)) ∧
    (¬ (commentParamNames comment).length < params.length →
      (recoverParams met params comment).2 = none ∧
      ∀ (i : Nat), i < params.length →
        ((recoverParams met params comment).1[i]?).map Prod.snd =
          some ((commentParamNames comment).getD i "")) := by
  rw [recoverParams, if_pos h]
  dsimp only
  by_cases hlen : (commentParamNames comment).length < params.length
  · rw [if_pos hlen]
    dsimp only
    refine ⟨?_, ?_, fun _ => ⟨rfl, ?_⟩, fun hc => absurd hlen hc⟩
    · rw [List.length_map, List.enum_length]
    · exact enum_map_proj_fst params
        (fun i => (mkBadnames params.length (commentParamNames comment)).getD i "")
    · intro i hi
      rw [List.getElem?_map, List.getElem?_enum, List.getElem?_eq_getElem hi]
      dsimp only [Option.map_some']
      rw [mkBadnames_getD params.length (commentParamNames comment) i hi]
  · rw [if_neg hlen]
    dsimp only
    refine ⟨?_, ?_, fun hc => absurd hc hlen, fun _ => ⟨rfl, ?_⟩⟩
    · rw [List.length_map, List.enum_length]
    · exact enum_map_proj_fst params (fun i => (commentParamNames comment).getD i "")
    · intro i hi
      rw [List.getElem?_map, List.getElem?_enum, List.getElem?_eq_getElem hi]
      dsimp only [Option.map_some']

/-- Witness for c8_name_recovery: two unnamed parameters against a single
documentation tag. -/
theorem c8_name_recovery_witness :
    ((recoverParams "libvlc_bar" [("libvlc_instance_t*", ""), ("int", "")]
        "\\param a first\n").1.length = 2) ∧
    ((recoverParams "libvlc_bar" [("libvlc_instance_t*", ""), ("int", "")]
        "\\param a first\n").2 =
      some ("### Cannot get parameter names from comment for " ++ "libvlc_bar" ++ ": "
        ++ pyReplace "\\param a first\n" "\n" " ")) ∧
    ((recoverParams "libvlc_bar" [("libvlc_instance_t*", ""), ("int", "")]
        "\\param a first\n").1[0]?).map Prod.snd =
      some (if 0 < (commentParamNames "\\param a first\n").length
        then (commentParamNames "\\param a first\n").getD 0 ""
        else "param" ++ toString 0) ∧
    ((recoverParams "libvlc_bar" [("libvlc_instance_t*", ""), ("int", "")]
        "\\param a first\n").1[1]?).map Prod.snd =
      some (if 1 < (commentParamNames "\\param a first\n").length
        then (commentParamNames "\\param a first\n").getD 1 ""
        else "param" ++ toString 1) := by
  have h := c8_name_recovery "libvlc_bar" "\\param a first\n"
    [("libvlc_instance_t*", ""), ("int", "")] (by decide)
  have hl := h.2.2.1 (by decide)
  exact ⟨h.1, hl.1, hl.2 0 (by decide), hl.2 1 (by decide)⟩

end VlcGen
